import Mathlib

/-!
# HomePage wallet component (`src/Codes/index.js`)

A shallow embedding of the React component `HomePage`: its nine `useState`
cells, the handlers `getWallet`, `connectAccount`, `getBankContract`,
`getBalance`, `deposit`, `withdraw`, `transferToken` and the input handlers.

Modelling conventions.

* A handler runs against the values of the state cells of the render that
  created it (the closure snapshot `s`).  Calling a setter does not change
  what the running handler reads; it only schedules the new value.  A handler
  is therefore a function from the snapshot to the ordered list of effects it
  performs, and the next state is obtained by applying the setter effects.
* The wallet, the ledger contract and the `ethers` helpers are outside the
  component.  The ledger is an oracle (`Ledger`) answering each call with a
  result or a thrown error message; every call issued is recorded in the
  effect list, so that "no call was sent" is a statement about that list.
* Thrown errors are represented by their `message`.
* The three operations end with a `getBalance(account)` that is not awaited.  It is
  modelled as completing in place: its query is issued at that point, and its only
  setter, `setBalance`, writes a cell that the rest of the handler does not touch, so
  the resulting state does not depend on when it lands.
* Events are handled one at a time, each against the state left by the previous one.
-/

set_option exponentiation.threshold 2000

namespace HomePage

/-! ## JavaScript built-ins used by the component -/

/-- ECMAScript `DecimalDigit`: the characters `0` to `9`. -/
def isDecimalDigit (c : Char) : Bool := 48 ≤ c.toNat && c.toNat ≤ 57

/-- ECMAScript `StrWhiteSpaceChar` (white space and line terminators), the characters
that `parseFloat` skips at the start of its argument. -/
def isStrWhiteSpaceChar (c : Char) : Bool :=
  decide (c.toNat ∈ [0x09, 0x0A, 0x0B, 0x0C, 0x0D, 0x20, 0xA0, 0x1680, 0x2028, 0x2029,
    0x202F, 0x205F, 0x3000, 0xFEFF]) || (0x2000 ≤ c.toNat && c.toNat ≤ 0x200A)

/-- Mathematical value of a string of decimal digits (most significant first). -/
def natOfDigits (ds : List Char) : Nat :=
  ds.foldl (fun n c => 10 * n + (c.toNat - 48)) 0

/-- What `parseFloat` reads, before rounding to a double: `NaN`, a signed `Infinity`,
or the exact decimal `± mantissa * 10 ^ exponent` denoted by the literal. -/
inductive JsNumber where
  | nan
  | infinity (negative : Bool)
  | decimal (negative : Bool) (mantissa : Nat) (exponent : Int)
  deriving DecidableEq, Repr

/-- The comparison `x <= 0` on the double that `x` rounds to.  `NaN <= 0` is false.
A decimal rounds to (plus or minus) zero exactly when its magnitude is at most
`2 ^ (-1075)`, half the least subnormal double (ties go to the even neighbour, zero). -/
def JsNumber.leZero : JsNumber → Bool
  | .nan => false
  | .infinity negative => negative
  | .decimal negative mantissa exponent =>
      negative || decide (mantissa * 2 ^ 1075 ≤ 10 ^ (-exponent).toNat)

/-- The optional `ExponentPart` (`e` or `E`, an optional sign, at least one digit) at
the head of `cs`; `0` when there is none. -/
def parseExponent (cs : List Char) : Int :=
  match cs with
  | [] => 0
  | c :: rest =>
    if c = 'e' ∨ c = 'E' then
      match rest with
      | '+' :: r =>
        if r.takeWhile isDecimalDigit = [] then 0
        else (natOfDigits (r.takeWhile isDecimalDigit) : Int)
      | '-' :: r =>
        if r.takeWhile isDecimalDigit = [] then 0
        else - (natOfDigits (r.takeWhile isDecimalDigit) : Int)
      | r =>
        if r.takeWhile isDecimalDigit = [] then 0
        else (natOfDigits (r.takeWhile isDecimalDigit) : Int)
    else 0

/-- The longest prefix of `cs` that is a `StrUnsignedDecimalLiteral`
(`Infinity`, `digits [. [digits]] [exp]` or `. digits [exp]`), with the sign read before. -/
def parseUnsigned (negative : Bool) (cs : List Char) : JsNumber :=
  match cs with
  | 'I' :: 'n' :: 'f' :: 'i' :: 'n' :: 'i' :: 't' :: 'y' :: _ => .infinity negative
  | _ =>
    let intPart := cs.takeWhile isDecimalDigit
    match cs.dropWhile isDecimalDigit with
    | '.' :: r =>
      let fracPart := r.takeWhile isDecimalDigit
      if intPart = [] ∧ fracPart = [] then .nan
      else .decimal negative (natOfDigits (intPart ++ fracPart))
        (parseExponent (r.dropWhile isDecimalDigit) - (fracPart.length : Int))
    | r =>
      if intPart = [] then .nan
      else .decimal negative (natOfDigits intPart) (parseExponent r)

/-- Modelled from the spec: the global `parseFloat` is a JavaScript built-in, not part of
`src/`; the spec only names the test it feeds (amount not a positive decimal).  The model
follows ECMAScript: skip leading white space, read an optional sign, then the longest
decimal literal; `NaN` when no literal starts there. -/
def parseFloat (input : String) : JsNumber :=
  match input.toList.dropWhile isStrWhiteSpaceChar with
  | '+' :: cs => parseUnsigned false cs
  | '-' :: cs => parseUnsigned true cs
  | cs => parseUnsigned false cs

/-! ## `ethers.utils.parseEther` -/

/-- The reasons for which `parseEther` throws. -/
inductive ParseFault where
  | invalidDecimalValue
  | missingValue
  | tooManyDecimalPoints
  | fractionalComponentExceedsDecimals
  deriving DecidableEq, Repr

/-- JavaScript `String.prototype.split` with a one-character separator. -/
def splitAtChar (sep : Char) : List Char → List (List Char)
  | [] => [[]]
  | c :: cs =>
    if c = sep then [] :: splitAtChar sep cs
    else
      match splitAtChar sep cs with
      | [] => [[c]]
      | p :: ps => (c :: p) :: ps

/-- Remove the zeros at the end of a digit string. -/
def trimTrailingZeros (ds : List Char) : List Char :=
  (ds.reverse.dropWhile (fun c => c = '0')).reverse

/-- Base units denoted by a whole part and a fractional part (both digit strings): the
fraction loses its trailing zeros, must then have at most 18 digits, and is padded with
zeros to 18 digits. -/
def weiOfParts (negative : Bool) (whole fraction : List Char) : Except ParseFault Int :=
  let whole := if whole = [] then ['0'] else whole
  let fraction := if fraction = [] then ['0'] else fraction
  let fraction := trimTrailingZeros fraction
  if 18 < fraction.length then .error .fractionalComponentExceedsDecimals
  else
    let fraction := if fraction = [] then ['0'] else fraction
    let fraction := fraction ++ List.replicate (18 - fraction.length) '0'
    let wei : Int := (natOfDigits whole : Int) * 10 ^ 18 + (natOfDigits fraction : Int)
    .ok (if negative then wei * (-1) else wei)

/-- Modelled from the spec: `ethers.utils.parseEther` belongs to the `ethers` library,
which is not part of `src/`.  The spec fixes the scale (display units times `10 ^ 18`);
the accepted syntax follows `parseFixed(value, 18)` of ethers v5: the argument must match
`^-?[0-9.]+$`, must not be a lone `.`, and may contain at most one decimal point. -/
def parseEther (value : String) : Except ParseFault Int :=
  let cs := value.toList
  let negative : Bool := cs.head? = some '-'
  let body := if negative then cs.drop 1 else cs
  if body = [] ∨ ¬ body.all (fun c => isDecimalDigit c || c = '.') then
    .error .invalidDecimalValue
  else if body = ['.'] then .error .missingValue
  else
    match splitAtChar '.' body with
    | [whole] => weiOfParts negative whole []
    | [whole, fraction] => weiOfParts negative whole fraction
    | _ => .error .tooManyDecimalPoints

/-- The helpers of `ethers.utils` whose results the component only passes on:
`isAddress` (address syntax and checksum), `formatEther` (base units to a decimal
string) and the text of the error thrown by `parseEther` for a given fault and argument. -/
structure Lib where
  isAddress : String → Bool
  formatEther : Int → String
  faultMessage : ParseFault → String → String

/-! ## Objects held in the state cells -/

/-- The value of `new ethers.providers.Web3Provider(window.ethereum)`. -/
inductive Provider where
  | web3Provider
  deriving DecidableEq, Repr

/-- The value of `ethWallet.getSigner()`. -/
structure Signer where
  provider : Provider
  deriving DecidableEq, Repr

/-- The value of `new ethers.Contract(contractAddress, bankABI, signer)`; the ABI is the
imported artifact, the same for every handle. -/
structure Contract where
  address : String
  signer : Signer
  deriving DecidableEq, Repr

/-- The constant `contractAddress`. -/
def contractAddress : String := "0xf39Fd6e51aad88F6F4ce6aB8827279cffFb92266"

/-- The nine `useState` cells.  `account` is `none` when it holds `undefined`
(the value of `accounts[0]` for an empty list). -/
structure State where
  ethWallet : Option Provider
  account : Option String
  bank : Option Contract
  balance : String
  showAddress : Bool
  amount : String
  recipient : String
  errorMessage : String
  showError : Bool
  deriving DecidableEq, Repr

/-- The initial values passed to `useState`. -/
def State.init : State where
  ethWallet := none
  account := some ""
  bank := none
  balance := "0"
  showAddress := true
  amount := ""
  recipient := ""
  errorMessage := ""
  showError := false

/-! ## The outside world -/

/-- A call that leaves the component: the wallet's account request or a call on the
ledger contract (`tx.wait()` included). -/
inductive Call where
  | requestAccounts
  | getBalance (bank : Contract) (address : Option String)
  | deposit (bank : Contract) (value : Int)
  | withdraw (bank : Contract) (amount : Int)
  | transferToken (bank : Contract) (recipient : String) (amount : Int)
  | wait (tx : Nat)
  deriving DecidableEq, Repr

/-- The mutating entry points of the ledger. -/
def Call.isMutating : Call → Bool
  | .deposit _ _ => true
  | .withdraw _ _ => true
  | .transferToken _ _ _ => true
  | _ => false

/-- A call addressed to the ledger contract (everything but the wallet's account request). -/
def Call.isLedger : Call → Bool
  | .requestAccounts => false
  | _ => true

/-- How the ledger answers: each call either returns (a balance in base units, a
transaction reference, a confirmation) or throws an error with the given message. -/
structure Ledger where
  getBalance : Contract → Option String → Except String Int
  deposit : Contract → Int → Except String Nat
  withdraw : Contract → Int → Except String Nat
  transferToken : Contract → String → Int → Except String Nat
  wait : Nat → Except String Unit

/-- What a handler does, in order: setter calls and calls to the outside. -/
inductive Effect where
  | setEthWallet (provider : Provider)
  | setAccount (account : Option String)
  | setBank (bank : Contract)
  | setBalance (balance : String)
  | setShowAddress (show_ : Bool)
  | setAmount (amount : String)
  | setRecipient (recipient : String)
  | setErrorMessage (message : String)
  | setShowError (show_ : Bool)
  | subscribeAccountsChanged
  | call (c : Call)
  deriving DecidableEq, Repr

/-- The state after one effect: a setter replaces its cell, a call changes no cell. -/
def Effect.apply (s : State) : Effect → State
  | .setEthWallet p => { s with ethWallet := some p }
  | .setAccount a => { s with account := a }
  | .setBank b => { s with bank := some b }
  | .setBalance b => { s with balance := b }
  | .setShowAddress b => { s with showAddress := b }
  | .setAmount a => { s with amount := a }
  | .setRecipient r => { s with recipient := r }
  | .setErrorMessage m => { s with errorMessage := m }
  | .setShowError b => { s with showError := b }
  | .subscribeAccountsChanged => s
  | .call _ => s

/-- The state after a list of effects, applied in order. -/
def applyAll (s : State) (effects : List Effect) : State :=
  effects.foldl Effect.apply s

/-- The calls issued in a list of effects, in order. -/
def callsOf (effects : List Effect) : List Call :=
  effects.filterMap (fun e => match e with | .call c => some c | _ => none)

/-- The mutating ledger calls issued in a list of effects. -/
def mutatingCalls (effects : List Effect) : List Call :=
  (callsOf effects).filter Call.isMutating

/-- The ledger calls issued in a list of effects. -/
def ledgerCalls (effects : List Effect) : List Call :=
  (callsOf effects).filter Call.isLedger

/-! ## The handlers -/

/-- The `catch` block shared by `connectAccount`, `getBankContract`, `deposit`,
`withdraw` and `transferToken`: `setErrorMessage(error.message); setShowError(true)`. -/
def reportError (message : String) : List Effect :=
  [.setErrorMessage message, .setShowError true]

/-- The function `getWallet`: with `window.ethereum` present, store a provider and subscribe to
`accountsChanged`; otherwise the thrown error is caught and a fixed message shown. -/
def getWallet (ethereumPresent : Bool) : List Effect :=
  if ethereumPresent then
    [.setEthWallet .web3Provider, .subscribeAccountsChanged]
  else
    [.setErrorMessage
      "Error connecting to Ethereum provider. Please check if MetaMask is installed and unlocked.",
     .setShowError true]

/-- The `accountsChanged` callback registered by `getWallet`. -/
def accountsChanged (accounts : List String) : List Effect :=
  if 0 < accounts.length then
    [.setAccount accounts.head?]
  else
    [.setErrorMessage "No accounts found. Please connect MetaMask.", .setShowError true]

/-- The function `getBalance(address)`: query through the handle of the snapshot; an absent handle
or a failed query is caught and only logged. -/
def getBalance (L : Lib) (W : Ledger) (s : State) (address : Option String) : List Effect :=
  match s.bank with
  | some bank =>
    match W.getBalance bank address with
    | .ok balance => [.call (.getBalance bank address), .setBalance (L.formatEther balance)]
    | .error _ => [.call (.getBalance bank address)]
  | none => []

/-- The function `getBankContract`: build a handle from the provider of the snapshot, store it, then
call `getBalance(account)` of the same snapshot. -/
def getBankContract (L : Lib) (W : Ledger) (s : State) : List Effect :=
  match s.ethWallet with
  | none => reportError "Ethereum provider not initialized."
  | some provider =>
    .setBank { address := contractAddress, signer := { provider := provider } }
      :: getBalance L W s s.account

/-- The function `connectAccount`: `response` is the wallet's answer to `eth_requestAccounts`. -/
def connectAccount (L : Lib) (W : Ledger) (s : State)
    (response : Except String (List String)) : List Effect :=
  match s.ethWallet with
  | none => reportError "Ethereum provider not initialized."
  | some _ =>
    match response with
    | .error message => .call .requestAccounts :: reportError message
    | .ok accounts =>
      .call .requestAccounts :: .setAccount accounts.head? :: getBankContract L W s

/-- The test `!amount || parseFloat(amount) <= 0`. -/
def amountRejected (amount : String) : Bool :=
  decide (amount = "") || (parseFloat amount).leZero

/-- The test `!recipient || !ethers.utils.isAddress(recipient)`. -/
def recipientRejected (L : Lib) (recipient : String) : Bool :=
  decide (recipient = "") || !L.isAddress recipient

/-- The function `deposit`. -/
def deposit (L : Lib) (W : Ledger) (s : State) : List Effect :=
  match s.bank with
  | none => reportError "Bank contract not initialized."
  | some bank =>
    if amountRejected s.amount then reportError "Please enter a valid amount."
    else
      match parseEther s.amount with
      | .error fault => reportError (L.faultMessage fault s.amount)
      | .ok depositAmount =>
        match W.deposit bank depositAmount with
        | .error message => .call (.deposit bank depositAmount) :: reportError message
        | .ok tx =>
          match W.wait tx with
          | .error message =>
            .call (.deposit bank depositAmount) :: .call (.wait tx) :: reportError message
          | .ok _ =>
            .call (.deposit bank depositAmount) :: .call (.wait tx) ::
              (getBalance L W s s.account ++ [.setAmount "", .setShowError false])

/-- The function `withdraw`. -/
def withdraw (L : Lib) (W : Ledger) (s : State) : List Effect :=
  match s.bank with
  | none => reportError "Bank contract not initialized."
  | some bank =>
    if amountRejected s.amount then reportError "Please enter a valid amount."
    else
      match parseEther s.amount with
      | .error fault => reportError (L.faultMessage fault s.amount)
      | .ok withdrawAmount =>
        match W.withdraw bank withdrawAmount with
        | .error message => .call (.withdraw bank withdrawAmount) :: reportError message
        | .ok tx =>
          match W.wait tx with
          | .error message =>
            .call (.withdraw bank withdrawAmount) :: .call (.wait tx) :: reportError message
          | .ok _ =>
            .call (.withdraw bank withdrawAmount) :: .call (.wait tx) ::
              (getBalance L W s s.account ++ [.setAmount "", .setShowError false])

/-- The function `transferToken`. -/
def transferToken (L : Lib) (W : Ledger) (s : State) : List Effect :=
  match s.bank with
  | none => reportError "Bank contract not initialized."
  | some bank =>
    if amountRejected s.amount then reportError "Please enter a valid amount."
    else if recipientRejected L s.recipient then
      reportError "Please enter a valid recipient address."
    else
      match parseEther s.amount with
      | .error fault => reportError (L.faultMessage fault s.amount)
      | .ok transferAmount =>
        match W.transferToken bank s.recipient transferAmount with
        | .error message =>
          .call (.transferToken bank s.recipient transferAmount) :: reportError message
        | .ok tx =>
          match W.wait tx with
          | .error message =>
            .call (.transferToken bank s.recipient transferAmount) :: .call (.wait tx) ::
              reportError message
          | .ok _ =>
            .call (.transferToken bank s.recipient transferAmount) :: .call (.wait tx) ::
              (getBalance L W s s.account ++
                [.setAmount "", .setRecipient "", .setShowError false])

/-- The function `toggleAddressVisibility`. -/
def toggleAddressVisibility (s : State) : List Effect :=
  [.setShowAddress (!s.showAddress)]

/-- The function `handleAmountChange`, with `e.target.value` as argument. -/
def handleAmountChange (value : String) : List Effect :=
  [.setAmount value]

/-- The function `handleRecipientChange`, with `e.target.value` as argument. -/
def handleRecipientChange (value : String) : List Effect :=
  [.setRecipient value]

/-! ## The component as a transition system -/

/-- What can happen to the mounted component. -/
inductive Event where
  | getWallet (ethereumPresent : Bool)
  | accountsChanged (accounts : List String)
  | connectAccount (response : Except String (List String))
  | deposit
  | withdraw
  | transferToken
  | toggleAddressVisibility
  | handleAmountChange (value : String)
  | handleRecipientChange (value : String)

/-- The effects of an event in state `s`. -/
def Event.effects (L : Lib) (W : Ledger) (s : State) : Event → List Effect
  | .getWallet present => HomePage.getWallet present
  | .accountsChanged accounts => HomePage.accountsChanged accounts
  | .connectAccount response => HomePage.connectAccount L W s response
  | .deposit => HomePage.deposit L W s
  | .withdraw => HomePage.withdraw L W s
  | .transferToken => HomePage.transferToken L W s
  | .toggleAddressVisibility => HomePage.toggleAddressVisibility s
  | .handleAmountChange value => HomePage.handleAmountChange value
  | .handleRecipientChange value => HomePage.handleRecipientChange value

/-- One event: run the handler on the current state and apply its setter calls. -/
def step (L : Lib) (W : Ledger) (s : State) (e : Event) : State :=
  applyAll s (e.effects L W s)

/-- A sequence of events from state `s`. -/
def run (L : Lib) (W : Ledger) (s : State) (events : List Event) : State :=
  events.foldl (step L W) s

/-! ## Decimal numerals (for the statement of C6) -/

/-- The text of the decimal numeral with whole part `whole` and fractional digits
`fraction`: the digits of the whole part, then, when there are fractional digits, a point
and those digits. -/
def renderDecimal (whole fraction : List Char) : List Char :=
  if fraction = [] then whole else whole ++ '.' :: fraction

/-- The value of that numeral: the whole part plus the fractional digits divided by the
matching power of ten. -/
def decimalValue (whole fraction : List Char) : ℚ :=
  (natOfDigits whole : ℚ) + (natOfDigits fraction : ℚ) / 10 ^ fraction.length

/-! ## A sample environment

Concrete helpers, ledgers and states on which the handlers can be evaluated. -/

/-- Hexadecimal digit. -/
def isHexDigit (c : Char) : Bool :=
  isDecimalDigit c || (97 ≤ c.toNat && c.toNat ≤ 102) || (65 ≤ c.toNat && c.toNat ≤ 70)

/-- A stand-in for the `ethers` helpers: `isAddress` accepts `0x` followed by 40
hexadecimal digits (the checksum and ICAP rules of the library are left out),
`formatEther` prints the base units, and the fault message is the library's reason. -/
def sampleLib : Lib where
  isAddress := fun r =>
    match r.toList with
    | '0' :: 'x' :: hex => decide (hex.length = 40) && hex.all isHexDigit
    | _ => false
  formatEther := fun wei => toString wei ++ " wei"
  faultMessage := fun fault _ =>
    match fault with
    | .invalidDecimalValue => "invalid decimal value"
    | .missingValue => "missing value"
    | .tooManyDecimalPoints => "too many decimal points"
    | .fractionalComponentExceedsDecimals => "fractional component exceeds decimals"

/-- A ledger on which every call succeeds; the balance is 2.5 display units. -/
def acceptingLedger : Ledger where
  getBalance := fun _ _ => .ok 2500000000000000000
  deposit := fun _ _ => .ok 1
  withdraw := fun _ _ => .ok 2
  transferToken := fun _ _ _ => .ok 3
  wait := fun _ => .ok ()

/-- A ledger whose mutating calls are declined by the wallet at the signing prompt. -/
def decliningLedger : Ledger where
  getBalance := fun _ _ => .ok 2500000000000000000
  deposit := fun _ _ => .error "user rejected transaction"
  withdraw := fun _ _ => .error "user rejected transaction"
  transferToken := fun _ _ _ => .error "user rejected transaction"
  wait := fun _ => .ok ()

/-- A ledger that accepts the submission and whose confirmation fails. -/
def revertingLedger : Ledger where
  getBalance := fun _ _ => .ok 2500000000000000000
  deposit := fun _ _ => .ok 1
  withdraw := fun _ _ => .ok 2
  transferToken := fun _ _ _ => .ok 3
  wait := fun _ => .error "transaction failed"

/-- The handle that `getBankContract` builds over the provider. -/
def sampleBank : Contract :=
  { address := contractAddress, signer := { provider := .web3Provider } }

/-- Two account addresses. -/
def accountA : String := "0x70997970C51812dc3A010C7d01b50e0d17dc79C8"

/-- The second account address. -/
def accountB : String := "0x3C44CdDdB6a900fa2b585dd299e03d12FA4293BC"

/-- The state after `getWallet` found a wallet: provider stored, nothing else. -/
def readyState : State := { State.init with ethWallet := some .web3Provider }

/-- A connected state: provider, account `accountA` and a bound handle, with the given
contents of the two input fields. -/
def connectedState (amount recipient : String) : State :=
  { State.init with
    ethWallet := some .web3Provider
    account := some accountA
    bank := some sampleBank
    amount := amount
    recipient := recipient }

/-! ## Facts about the parsers -/

/-- The result of `split` is never empty. -/
theorem splitAtChar_ne_nil (sep : Char) (cs : List Char) : splitAtChar sep cs ≠ [] := by
  induction cs with
  | nil => simp [splitAtChar]
  | cons c cs ih =>
    unfold splitAtChar
    split_ifs
    · simp
    · split <;> simp

/-- A decimal digit is not white space. -/
theorem digit_not_space {c : Char} (h : isDecimalDigit c = true) :
    isStrWhiteSpaceChar c = false := by
  simp only [isDecimalDigit, Bool.and_eq_true, decide_eq_true_eq] at h
  simp only [isStrWhiteSpaceChar, Bool.or_eq_false_iff, decide_eq_false_iff_not,
    Bool.and_eq_false_imp, List.mem_cons, List.mem_singleton, List.not_mem_nil,
    decide_eq_true_eq, or_false]
  constructor
  · omega
  · intro h1; omega

/-- On input that starts with a digit or a point, `parseUnsigned` reads digits. -/
theorem parseUnsigned_digit_or_dot (negative : Bool) (c : Char) (rest : List Char)
    (hc : isDecimalDigit c = true ∨ c = '.') :
    parseUnsigned negative (c :: rest) =
      match (c :: rest).dropWhile isDecimalDigit with
      | '.' :: r =>
        if (c :: rest).takeWhile isDecimalDigit = [] ∧ r.takeWhile isDecimalDigit = [] then .nan
        else .decimal negative
          (natOfDigits ((c :: rest).takeWhile isDecimalDigit ++ r.takeWhile isDecimalDigit))
          (parseExponent (r.dropWhile isDecimalDigit) -
            ((r.takeWhile isDecimalDigit).length : Int))
      | r =>
        if (c :: rest).takeWhile isDecimalDigit = [] then .nan
        else .decimal negative (natOfDigits ((c :: rest).takeWhile isDecimalDigit))
          (parseExponent r) := by
  unfold parseUnsigned
  split
  · rename_i h
    injection h with h1 _
    subst h1
    rcases hc with hc | hc
    · simp [isDecimalDigit] at hc
    · simp at hc
  · rfl

/-- A non-empty string of digits and points, other than a lone point and with at most one
point, starts with a decimal literal. -/
theorem parseUnsigned_ne_nan (negative : Bool) (body : List Char)
    (hne : body ≠ [])
    (hall : body.all (fun c => isDecimalDigit c || c = '.') = true)
    (hdot : body ≠ ['.'])
    (hsplit : (splitAtChar '.' body).length ≤ 2) :
    parseUnsigned negative body ≠ .nan := by
  cases body with
  | nil => exact absurd rfl hne
  | cons c rest =>
    have hc : isDecimalDigit c = true ∨ c = '.' := by
      simp only [List.all_cons, Bool.and_eq_true, Bool.or_eq_true, decide_eq_true_eq] at hall
      exact hall.1
    rw [parseUnsigned_digit_or_dot negative c rest hc]
    by_cases hd : isDecimalDigit c = true
    · have htw : (c :: rest).takeWhile isDecimalDigit ≠ [] := by simp [List.takeWhile, hd]
      split
      · simp [htw]
      · simp [htw]
    · have hcdot : c = '.' := by rcases hc with h | h; exact absurd h hd; exact h
      subst hcdot
      cases rest with
      | nil => exact absurd rfl hdot
      | cons d rest2 =>
        have hd2 : isDecimalDigit d = true := by
          simp only [List.all_cons, Bool.and_eq_true, Bool.or_eq_true, decide_eq_true_eq] at hall
          rcases hall.2.1 with h | h
          · exact h
          · subst h
            exfalso
            have := splitAtChar_ne_nil '.' rest2
            simp only [splitAtChar, if_true] at hsplit
            cases hs : splitAtChar '.' rest2 with
            | nil => exact this hs
            | cons a b => rw [hs] at hsplit; simp at hsplit
        simp [List.dropWhile, List.takeWhile, hd, hd2]

/-- What `parseEther` has checked about the text after the sign when it returns. -/
theorem parseEther_body_ok (negative : Bool) (body : List Char) (n : Int)
    (h : (if body = [] ∨ ¬ body.all (fun c => isDecimalDigit c || c = '.') then
            (.error .invalidDecimalValue : Except ParseFault Int)
          else if body = ['.'] then .error .missingValue
          else
            match splitAtChar '.' body with
            | [whole] => weiOfParts negative whole []
            | [whole, fraction] => weiOfParts negative whole fraction
            | _ => .error .tooManyDecimalPoints) = .ok n) :
    body ≠ [] ∧ body.all (fun c => isDecimalDigit c || c = '.') = true ∧ body ≠ ['.'] ∧
      (splitAtChar '.' body).length ≤ 2 := by
  split_ifs at h with h1 h2
  push_neg at h1
  refine ⟨h1.1, by simpa using h1.2, h2, ?_⟩
  split at h
  · rename_i e; simp [e]
  · rename_i e; simp [e]
  · cases h

/-- Every string that `parseEther` accepts is read by `parseFloat` as a number. -/
theorem parseEther_ok_not_nan (value : String) (n : Int) (h : parseEther value = .ok n) :
    parseFloat value ≠ .nan := by
  unfold parseEther at h
  simp only at h
  cases hcs : value.toList with
  | nil => rw [hcs] at h; simp at h
  | cons c rest =>
    rw [hcs] at h
    unfold parseFloat
    rw [hcs]
    by_cases hc : c = '-'
    · subst hc
      simp only [List.head?_cons, decide_True, if_true, List.drop_succ_cons, List.drop_zero] at h
      obtain ⟨h1, h2, h3, h4⟩ := parseEther_body_ok true rest n h
      have : List.dropWhile isStrWhiteSpaceChar ('-' :: rest) = '-' :: rest := by
        rw [List.dropWhile_cons_of_neg]; decide
      rw [this]
      exact parseUnsigned_ne_nan true rest h1 h2 h3 h4
    · have hneg : decide (List.head? (c :: rest) = some '-') = false := by simp [hc]
      simp only [hneg] at h
      simp only [Bool.false_eq_true, if_false] at h
      obtain ⟨h1, h2, h3, h4⟩ := parseEther_body_ok false (c :: rest) n h
      have hcd : isDecimalDigit c = true ∨ c = '.' := by
        simp only [List.all_cons, Bool.and_eq_true, Bool.or_eq_true, decide_eq_true_eq] at h2
        exact h2.1
      have hsp : isStrWhiteSpaceChar c = false := by
        rcases hcd with hd | hd
        · exact digit_not_space hd
        · subst hd; decide
      have hplus : c ≠ '+' := by
        rcases hcd with hd | hd
        · intro e; subst e; simp [isDecimalDigit] at hd
        · subst hd; decide
      have : List.dropWhile isStrWhiteSpaceChar (c :: rest) = c :: rest := by
        rw [List.dropWhile_cons_of_neg]; simp [hsp]
      rw [this]
      split
      · rename_i e; injection e with e1 _; exact absurd e1 hplus
      · rename_i e; injection e with e1 _; exact absurd e1 hc
      · exact parseUnsigned_ne_nan false (c :: rest) h1 h2 h3 h4

/-! ## Validation (C1, C2) -/

/-- The effects of the `catch` block issue no call and leave the error banner shown. -/
theorem reportError_rejected (s : State) (t : List Effect) (m : String)
    (h : t = reportError m) :
    callsOf t = [] ∧ (applyAll s t).errorMessage = m ∧ (applyAll s t).showError = true ∧
      (applyAll s t).amount = s.amount ∧ (applyAll s t).recipient = s.recipient ∧
      (applyAll s t).balance = s.balance ∧ (applyAll s t).account = s.account ∧
      (applyAll s t).bank = s.bank := by
  subst h
  simp [reportError, callsOf, applyAll, Effect.apply]

/-- An amount for which the validation test fires or `parseFloat` yields `NaN` ends
`deposit` in its `catch` block. -/
theorem deposit_invalid_amount (L : Lib) (W : Ledger) (s : State)
    (h : s.amount = "" ∨ parseFloat s.amount = .nan ∨ (parseFloat s.amount).leZero = true) :
    ∃ m, deposit L W s = reportError m := by
  unfold deposit
  cases s.bank with
  | none => exact ⟨_, rfl⟩
  | some bank =>
    simp only
    by_cases hr : amountRejected s.amount = true
    · rw [if_pos hr]; exact ⟨_, rfl⟩
    · rw [if_neg hr]
      cases hp : parseEther s.amount with
      | error fault => exact ⟨_, rfl⟩
      | ok n =>
        exfalso
        rcases h with h | h | h
        · exact hr (by simp [amountRejected, h])
        · exact parseEther_ok_not_nan _ _ hp h
        · exact hr (by simp [amountRejected, h])

/-- As `deposit_invalid_amount`, for `withdraw`. -/
theorem withdraw_invalid_amount (L : Lib) (W : Ledger) (s : State)
    (h : s.amount = "" ∨ parseFloat s.amount = .nan ∨ (parseFloat s.amount).leZero = true) :
    ∃ m, withdraw L W s = reportError m := by
  unfold withdraw
  cases s.bank with
  | none => exact ⟨_, rfl⟩
  | some bank =>
    simp only
    by_cases hr : amountRejected s.amount = true
    · rw [if_pos hr]; exact ⟨_, rfl⟩
    · rw [if_neg hr]
      cases hp : parseEther s.amount with
      | error fault => exact ⟨_, rfl⟩
      | ok n =>
        exfalso
        rcases h with h | h | h
        · exact hr (by simp [amountRejected, h])
        · exact parseEther_ok_not_nan _ _ hp h
        · exact hr (by simp [amountRejected, h])

/-- As `deposit_invalid_amount`, for `transferToken`. -/
theorem transferToken_invalid_amount (L : Lib) (W : Ledger) (s : State)
    (h : s.amount = "" ∨ parseFloat s.amount = .nan ∨ (parseFloat s.amount).leZero = true) :
    ∃ m, transferToken L W s = reportError m := by
  unfold transferToken
  cases s.bank with
  | none => exact ⟨_, rfl⟩
  | some bank =>
    simp only
    by_cases hr : amountRejected s.amount = true
    · rw [if_pos hr]; exact ⟨_, rfl⟩
    · rw [if_neg hr]
      by_cases hq : recipientRejected L s.recipient = true
      · rw [if_pos hq]; exact ⟨_, rfl⟩
      · rw [if_neg hq]
        cases hp : parseEther s.amount with
        | error fault => exact ⟨_, rfl⟩
        | ok n =>
          exfalso
          rcases h with h | h | h
          · exact hr (by simp [amountRejected, h])
          · exact parseEther_ok_not_nan _ _ hp h
          · exact hr (by simp [amountRejected, h])

/-- C1: for every state whose amount string is empty, is read by `parseFloat` as `NaN`,
or is read as a number that is `<= 0`, each of `deposit`, `withdraw` and `transferToken`
ends in its `catch` block: it issues no call at all (in particular no mutating ledger
call) and leaves `showError = true`. -/
theorem invalid_amount_never_submitted (L : Lib) (W : Ledger) (s : State)
    (h : s.amount = "" ∨ parseFloat s.amount = .nan ∨ (parseFloat s.amount).leZero = true) :
    ((∃ m, deposit L W s = reportError m) ∧ mutatingCalls (deposit L W s) = [] ∧
        callsOf (deposit L W s) = [] ∧ (step L W s .deposit).showError = true) ∧
    ((∃ m, withdraw L W s = reportError m) ∧ mutatingCalls (withdraw L W s) = [] ∧
        callsOf (withdraw L W s) = [] ∧ (step L W s .withdraw).showError = true) ∧
    ((∃ m, transferToken L W s = reportError m) ∧ mutatingCalls (transferToken L W s) = [] ∧
        callsOf (transferToken L W s) = [] ∧
        (step L W s .transferToken).showError = true) := by
  obtain ⟨m1, h1⟩ := deposit_invalid_amount L W s h
  obtain ⟨m2, h2⟩ := withdraw_invalid_amount L W s h
  obtain ⟨m3, h3⟩ := transferToken_invalid_amount L W s h
  have r1 := reportError_rejected s _ m1 h1
  have r2 := reportError_rejected s _ m2 h2
  have r3 := reportError_rejected s _ m3 h3
  refine ⟨⟨⟨m1, h1⟩, ?_, r1.1, r1.2.2.1⟩, ⟨⟨m2, h2⟩, ?_, r2.1, r2.2.2.1⟩,
    ⟨⟨m3, h3⟩, ?_, r3.1, r3.2.2.1⟩⟩
  · simp [mutatingCalls, r1.1]
  · simp [mutatingCalls, r2.1]
  · simp [mutatingCalls, r3.1]

/-- Witness for C1: the amount `abc` (read as `NaN`) on a connected state with an
accepting ledger. -/
theorem invalid_amount_never_submitted_witness :
    parseFloat (connectedState "abc" accountB).amount = .nan ∧
    mutatingCalls (deposit sampleLib acceptingLedger (connectedState "abc" accountB)) = [] ∧
    mutatingCalls (withdraw sampleLib acceptingLedger (connectedState "abc" accountB)) = [] ∧
    mutatingCalls (transferToken sampleLib acceptingLedger (connectedState "abc" accountB)) = [] ∧
    (step sampleLib acceptingLedger (connectedState "abc" accountB) .transferToken).showError
      = true :=
  have h := invalid_amount_never_submitted sampleLib acceptingLedger
    (connectedState "abc" accountB) (Or.inr (Or.inl (by decide)))
  ⟨by decide, h.1.2.1, h.2.1.2.1, h.2.2.2.1, h.2.2.2.2.2⟩

/-- C2: for every state whose recipient string is empty or is not accepted by
`ethers.utils.isAddress`, `transferToken` ends in its `catch` block: it issues no call
(so `bank.transferToken` is never called), `showError` is `true`, and when a handle is
bound and the amount passes its test the message is
`Please enter a valid recipient address.`. -/
theorem invalid_recipient_never_transferred (L : Lib) (W : Ledger) (s : State)
    (h : s.recipient = "" ∨ L.isAddress s.recipient = false) :
    (∃ m, transferToken L W s = reportError m) ∧
    mutatingCalls (transferToken L W s) = [] ∧
    ledgerCalls (transferToken L W s) = [] ∧
    (step L W s .transferToken).showError = true ∧
    (s.bank ≠ none → amountRejected s.amount = false →
      (step L W s .transferToken).errorMessage = "Please enter a valid recipient address.") := by
  have hq : recipientRejected L s.recipient = true := by
    rcases h with h | h <;> simp [recipientRejected, h]
  have hex : ∃ m, transferToken L W s = reportError m ∧
      (s.bank ≠ none → amountRejected s.amount = false →
        m = "Please enter a valid recipient address.") := by
    unfold transferToken
    cases s.bank with
    | none => exact ⟨_, rfl, fun hb => absurd rfl hb⟩
    | some bank =>
      simp only
      by_cases hr : amountRejected s.amount = true
      · rw [if_pos hr]; exact ⟨_, rfl, fun _ ha => by rw [hr] at ha; cases ha⟩
      · rw [if_neg hr, if_pos hq]; exact ⟨_, rfl, fun _ _ => rfl⟩
  obtain ⟨m, hm, hmsg⟩ := hex
  have r := reportError_rejected s _ m hm
  refine ⟨⟨m, hm⟩, by simp [mutatingCalls, r.1], by simp [ledgerCalls, r.1], r.2.2.1, ?_⟩
  intro hb ha
  have := r.2.1
  rw [hmsg hb ha] at this
  exact this

/-- Witness for C2: the recipient `not-an-address` with a valid amount on a connected
state. -/
theorem invalid_recipient_never_transferred_witness :
    sampleLib.isAddress (connectedState "1.5" "not-an-address").recipient = false ∧
    ledgerCalls (transferToken sampleLib acceptingLedger
      (connectedState "1.5" "not-an-address")) = [] ∧
    (step sampleLib acceptingLedger (connectedState "1.5" "not-an-address")
      .transferToken).errorMessage = "Please enter a valid recipient address." :=
  have h := invalid_recipient_never_transferred sampleLib acceptingLedger
    (connectedState "1.5" "not-an-address") (Or.inr (by decide))
  ⟨by decide, h.2.2.1, h.2.2.2.2 (by decide) (by decide)⟩

/-! ## Failed submissions (C5) -/

/-- C5: when `deposit`, `withdraw` or `transferToken` gets as far as its mutating call
(handle `bank` bound, inputs accepted, amount converted to `n`) and that call, or the
following `tx.wait()`, throws an error with message `e`, the next state has the same
`amount` and `recipient` as before, `errorMessage = e` and `showError = true`. -/
theorem failure_keeps_inputs (L : Lib) (W : Ledger) (s : State) (bank : Contract) (n : Int)
    (e : String) (hb : s.bank = some bank) (ha : amountRejected s.amount = false)
    (hn : parseEther s.amount = .ok n) :
    ((W.deposit bank n = .error e ∨ ∃ tx, W.deposit bank n = .ok tx ∧ W.wait tx = .error e) →
      (step L W s .deposit).amount = s.amount ∧
      (step L W s .deposit).recipient = s.recipient ∧
      (step L W s .deposit).errorMessage = e ∧
      (step L W s .deposit).showError = true) ∧
    ((W.withdraw bank n = .error e ∨
        ∃ tx, W.withdraw bank n = .ok tx ∧ W.wait tx = .error e) →
      (step L W s .withdraw).amount = s.amount ∧
      (step L W s .withdraw).recipient = s.recipient ∧
      (step L W s .withdraw).errorMessage = e ∧
      (step L W s .withdraw).showError = true) ∧
    (recipientRejected L s.recipient = false →
      (W.transferToken bank s.recipient n = .error e ∨
        ∃ tx, W.transferToken bank s.recipient n = .ok tx ∧ W.wait tx = .error e) →
      (step L W s .transferToken).amount = s.amount ∧
      (step L W s .transferToken).recipient = s.recipient ∧
      (step L W s .transferToken).errorMessage = e ∧
      (step L W s .transferToken).showError = true) := by
  refine ⟨?_, ?_, ?_⟩
  · rintro (hf | ⟨tx, hs, hw⟩)
    · simp [step, Event.effects, deposit, hb, ha, hn, hf, reportError, applyAll, Effect.apply]
    · simp [step, Event.effects, deposit, hb, ha, hn, hs, hw, reportError, applyAll,
        Effect.apply]
  · rintro (hf | ⟨tx, hs, hw⟩)
    · simp [step, Event.effects, withdraw, hb, ha, hn, hf, reportError, applyAll, Effect.apply]
    · simp [step, Event.effects, withdraw, hb, ha, hn, hs, hw, reportError, applyAll,
        Effect.apply]
  · rintro hq (hf | ⟨tx, hs, hw⟩)
    · simp [step, Event.effects, transferToken, hb, ha, hq, hn, hf, reportError, applyAll,
        Effect.apply]
    · simp [step, Event.effects, transferToken, hb, ha, hq, hn, hs, hw, reportError, applyAll,
        Effect.apply]

/-- Witness for C5: the wallet declines the signing prompt of a withdrawal of `2.0`, and
the confirmation of a submitted deposit of `2.0` fails. -/
theorem failure_keeps_inputs_witness :
    (decliningLedger.withdraw sampleBank 2000000000000000000
        = .error "user rejected transaction" ∧
      (step sampleLib decliningLedger (connectedState "2.0" "") .withdraw).amount = "2.0" ∧
      (step sampleLib decliningLedger (connectedState "2.0" "") .withdraw).recipient = "" ∧
      (step sampleLib decliningLedger (connectedState "2.0" "") .withdraw).errorMessage
        = "user rejected transaction" ∧
      (step sampleLib decliningLedger (connectedState "2.0" "") .withdraw).showError = true) ∧
    (revertingLedger.wait 1 = .error "transaction failed" ∧
      (step sampleLib revertingLedger (connectedState "2.0" "") .deposit).amount = "2.0" ∧
      (step sampleLib revertingLedger (connectedState "2.0" "") .deposit).recipient = "" ∧
      (step sampleLib revertingLedger (connectedState "2.0" "") .deposit).errorMessage
        = "transaction failed" ∧
      (step sampleLib revertingLedger (connectedState "2.0" "") .deposit).showError = true) :=
  ⟨⟨rfl, (failure_keeps_inputs sampleLib decliningLedger (connectedState "2.0" "") sampleBank
      2000000000000000000 "user rejected transaction" rfl (by decide) rfl).2.1 (Or.inl rfl)⟩,
    ⟨rfl, (failure_keeps_inputs sampleLib revertingLedger (connectedState "2.0" "") sampleBank
      2000000000000000000 "transaction failed" rfl (by decide) rfl).1
        (Or.inr ⟨1, rfl, rfl⟩)⟩⟩

/-! ## The balance cell (C7) -/

/-- Every `setBalance` performed by `getBalance` carries the formatted result of a
successful query, issued in the same run through the bound handle. -/
theorem getBalance_setBalance (L : Lib) (W : Ledger) (s : State) (address : Option String)
    (x : String) (hx : Effect.setBalance x ∈ getBalance L W s address) :
    ∃ bank v, s.bank = some bank ∧ W.getBalance bank address = .ok v ∧
      x = L.formatEther v ∧
      Effect.call (.getBalance bank address) ∈ getBalance L W s address := by
  unfold getBalance at hx ⊢
  cases hb : s.bank with
  | none => rw [hb] at hx; simp at hx
  | some bank =>
    rw [hb] at hx
    simp only at hx ⊢
    cases hq : W.getBalance bank address with
    | error m => rw [hq] at hx; simp at hx
    | ok v =>
      rw [hq] at hx
      simp at hx
      exact ⟨bank, v, rfl, hq, hx, by simp⟩

/-- The `balance` cell after a list of effects is the last `setBalance` argument, or the
old balance when the list has none. -/
theorem applyAll_balance (t : List Effect) (s : State) :
    (applyAll s t).balance = s.balance ∨
      ∃ x, Effect.setBalance x ∈ t ∧ (applyAll s t).balance = x := by
  induction t using List.reverseRecOn with
  | nil => left; rfl
  | append_singleton t e ih =>
    have happ : applyAll s (t ++ [e]) = Effect.apply (applyAll s t) e := by
      simp [applyAll, List.foldl_append]
    rw [happ]
    cases e with
    | setBalance b => right; exact ⟨b, by simp, rfl⟩
    | _ =>
      all_goals
        rcases ih with ih | ⟨x, hx, ih⟩
        · left; simpa [Effect.apply] using ih
        · right; exact ⟨x, by simp [hx], by simpa [Effect.apply] using ih⟩

/-- In every handler, a `setBalance` comes from `getBalance` called with the account of
the snapshot, and the effects of that `getBalance` are part of the handler's. -/
theorem effects_setBalance (L : Lib) (W : Ledger) (s : State) (ev : Event) (x : String)
    (hx : Effect.setBalance x ∈ ev.effects L W s) :
    Effect.setBalance x ∈ getBalance L W s s.account ∧
      ∀ e ∈ getBalance L W s s.account, e ∈ ev.effects L W s := by
  cases ev with
  | getWallet present =>
    simp only [Event.effects, getWallet] at hx
    split_ifs at hx <;> simp at hx
  | accountsChanged accounts =>
    simp only [Event.effects, accountsChanged] at hx
    split_ifs at hx <;> simp at hx
  | connectAccount response =>
    simp only [Event.effects, connectAccount, getBankContract] at hx ⊢
    cases hw : s.ethWallet with
    | none => rw [hw] at hx; simp [reportError] at hx
    | some p =>
      rw [hw] at hx
      cases response with
      | error m => simp [reportError] at hx
      | ok accounts =>
        refine ⟨by simpa using hx, fun e he => ?_⟩
        simp [he]
  | deposit =>
    simp only [Event.effects, deposit] at hx ⊢
    split at hx
    · simp [reportError] at hx
    · split_ifs at hx with ha
      · simp [reportError] at hx
      · split at hx
        · simp [reportError] at hx
        · split at hx
          · simp [reportError] at hx
          · split at hx
            · simp [reportError] at hx
            · rename_i hb _ _ hn _ _ hd _ _ hw
              refine ⟨by simpa using hx, fun e he => ?_⟩
              simp [hb, ha, hn, hd, hw, he]
  | withdraw =>
    simp only [Event.effects, withdraw] at hx ⊢
    split at hx
    · simp [reportError] at hx
    · split_ifs at hx with ha
      · simp [reportError] at hx
      · split at hx
        · simp [reportError] at hx
        · split at hx
          · simp [reportError] at hx
          · split at hx
            · simp [reportError] at hx
            · rename_i hb _ _ hn _ _ hd _ _ hw
              refine ⟨by simpa using hx, fun e he => ?_⟩
              simp [hb, ha, hn, hd, hw, he]
  | transferToken =>
    simp only [Event.effects, transferToken] at hx ⊢
    split at hx
    · simp [reportError] at hx
    · split_ifs at hx with ha hq
      · simp [reportError] at hx
      · simp [reportError] at hx
      · split at hx
        · simp [reportError] at hx
        · split at hx
          · simp [reportError] at hx
          · split at hx
            · simp [reportError] at hx
            · rename_i hb _ _ hn _ _ hd _ _ hw
              refine ⟨by simpa using hx, fun e he => ?_⟩
              simp [hb, ha, hq, hn, hd, hw, he]
  | toggleAddressVisibility => simp [Event.effects, toggleAddressVisibility] at hx
  | handleAmountChange v => simp [Event.effects, handleAmountChange] at hx
  | handleRecipientChange v => simp [Event.effects, handleRecipientChange] at hx

/-- C7: `balance` is written only by a successful ledger query.  A `getBalance` call
that fails (no handle bound, or `bank.getBalance` throws) leaves `balance` as it was, and
for every event of the component (the three operations, `connectAccount`, `getWallet`,
the input handlers, account-change notifications) the next `balance` is either the old
one or the formatted result of a query that was issued through the bound handle and
succeeded. -/
theorem balance_written_only_by_query (L : Lib) (W : Ledger) (s : State) :
    (∀ address, (s.bank = none ∨ ∃ bank e, s.bank = some bank ∧
        W.getBalance bank address = .error e) →
      (applyAll s (getBalance L W s address)).balance = s.balance) ∧
    (∀ ev : Event, (step L W s ev).balance = s.balance ∨
      ∃ bank v, s.bank = some bank ∧ W.getBalance bank s.account = .ok v ∧
        Effect.call (.getBalance bank s.account) ∈ ev.effects L W s ∧
        (step L W s ev).balance = L.formatEther v) := by
  constructor
  · rintro address (hb | ⟨bank, e, hb, he⟩)
    · simp [getBalance, hb, applyAll]
    · simp [getBalance, hb, he, applyAll, Effect.apply]
  · intro ev
    rcases applyAll_balance (ev.effects L W s) s with h | ⟨x, hx, h⟩
    · left; exact h
    · right
      obtain ⟨hx2, hsub⟩ := effects_setBalance L W s ev x hx
      obtain ⟨bank, v, hb, hv, hxv, hcall⟩ := getBalance_setBalance L W s s.account x hx2
      exact ⟨bank, v, hb, hv, hsub _ hcall, by rw [← hxv]; exact h⟩

/-- Witness for C7: without a handle `getBalance` keeps the balance `0`, and a confirmed
deposit replaces it by the formatted answer of the ledger. -/
theorem balance_written_only_by_query_witness :
    (applyAll readyState (getBalance sampleLib acceptingLedger readyState (some accountA))).balance
      = "0" ∧
    ((step sampleLib acceptingLedger (connectedState "1.5" "") .deposit).balance
        = (connectedState "1.5" "").balance ∨
      ∃ bank v, (connectedState "1.5" "").bank = some bank ∧
        acceptingLedger.getBalance bank (connectedState "1.5" "").account = .ok v ∧
        Effect.call (.getBalance bank (connectedState "1.5" "").account) ∈
          Event.effects sampleLib acceptingLedger (connectedState "1.5" "") .deposit ∧
        (step sampleLib acceptingLedger (connectedState "1.5" "") .deposit).balance
          = sampleLib.formatEther v) :=
  ⟨(balance_written_only_by_query sampleLib acceptingLedger readyState).1 (some accountA)
      (Or.inl rfl),
    (balance_written_only_by_query sampleLib acceptingLedger (connectedState "1.5" "")).2
      .deposit⟩

/-! ## Confirmed operations (C8) -/

/-- The state after effects `t ++ u`. -/
theorem applyAll_append (s : State) (t u : List Effect) :
    applyAll s (t ++ u) = applyAll (applyAll s t) u := by
  simp [applyAll, List.foldl_append]

/-- Counterexample to C8: a confirmed deposit on a state whose recipient field is filled
empties `amount` and leaves `recipient` as it was. -/
theorem deposit_keeps_recipient :
    acceptingLedger.deposit sampleBank 1500000000000000000 = .ok 1 ∧
    acceptingLedger.wait 1 = .ok () ∧
    mutatingCalls (deposit sampleLib acceptingLedger (connectedState "1.5" accountB))
      = [.deposit sampleBank 1500000000000000000] ∧
    (step sampleLib acceptingLedger (connectedState "1.5" accountB) .deposit).amount = "" ∧
    (step sampleLib acceptingLedger (connectedState "1.5" accountB) .deposit).recipient
      = accountB ∧
    (step sampleLib acceptingLedger (connectedState "1.5" accountB) .deposit).recipient
      ≠ "" := by
  refine ⟨rfl, rfl, ?_, ?_, ?_, ?_⟩ <;> decide

/-- The cells other than `balance` are not touched by the effects of `getBalance`. -/
theorem applyAll_getBalance (L : Lib) (W : Ledger) (s s0 : State) (address : Option String) :
    (applyAll s (getBalance L W s0 address)).amount = s.amount ∧
    (applyAll s (getBalance L W s0 address)).recipient = s.recipient := by
  unfold getBalance
  cases s0.bank with
  | none => simp [applyAll]
  | some bank =>
    simp only
    cases W.getBalance bank address <;> simp [applyAll, Effect.apply]

/-- When submission and confirmation both succeed, `deposit` queries the balance for the
account of the snapshot and empties `amount` only. -/
theorem deposit_confirmed (L : Lib) (W : Ledger) (s : State) (bank : Contract) (n : Int)
    (tx : Nat) (hb : s.bank = some bank) (ha : amountRejected s.amount = false)
    (hn : parseEther s.amount = .ok n) (hs : W.deposit bank n = .ok tx)
    (hw : W.wait tx = .ok ()) :
    Effect.call (.getBalance bank s.account) ∈ deposit L W s ∧
    (step L W s .deposit).amount = "" ∧ (step L W s .deposit).recipient = s.recipient := by
  have hq : Effect.call (.getBalance bank s.account) ∈ getBalance L W s s.account := by
    unfold getBalance; rw [hb]; simp only; cases W.getBalance bank s.account <;> simp
  have hd : deposit L W s = [.call (.deposit bank n), .call (.wait tx)] ++
      (getBalance L W s s.account ++ [.setAmount "", .setShowError false]) := by
    simp [deposit, hb, ha, hn, hs, hw]
  have hg := applyAll_getBalance L W s s s.account
  refine ⟨by rw [hd]; simp [hq], ?_, ?_⟩
  · simp only [step, Event.effects, hd, applyAll_append]
    simp [applyAll, Effect.apply]
  · simp only [step, Event.effects, hd, applyAll_append]
    have := (applyAll_getBalance L W (applyAll s [.call (.deposit bank n), .call (.wait tx)])
      s s.account).2
    simp only [applyAll, List.foldl, Effect.apply] at this ⊢
    exact this

/-- As `deposit_confirmed`, for `withdraw`. -/
theorem withdraw_confirmed (L : Lib) (W : Ledger) (s : State) (bank : Contract) (n : Int)
    (tx : Nat) (hb : s.bank = some bank) (ha : amountRejected s.amount = false)
    (hn : parseEther s.amount = .ok n) (hs : W.withdraw bank n = .ok tx)
    (hw : W.wait tx = .ok ()) :
    Effect.call (.getBalance bank s.account) ∈ withdraw L W s ∧
    (step L W s .withdraw).amount = "" ∧ (step L W s .withdraw).recipient = s.recipient := by
  have hq : Effect.call (.getBalance bank s.account) ∈ getBalance L W s s.account := by
    unfold getBalance; rw [hb]; simp only; cases W.getBalance bank s.account <;> simp
  have hd : withdraw L W s = [.call (.withdraw bank n), .call (.wait tx)] ++
      (getBalance L W s s.account ++ [.setAmount "", .setShowError false]) := by
    simp [withdraw, hb, ha, hn, hs, hw]
  refine ⟨by rw [hd]; simp [hq], ?_, ?_⟩
  · simp only [step, Event.effects, hd, applyAll_append]
    simp [applyAll, Effect.apply]
  · simp only [step, Event.effects, hd, applyAll_append]
    have := (applyAll_getBalance L W (applyAll s [.call (.withdraw bank n), .call (.wait tx)])
      s s.account).2
    simp only [applyAll, List.foldl, Effect.apply] at this ⊢
    exact this

/-- When submission and confirmation both succeed, `transferToken` queries the balance
for the account of the snapshot and empties `amount` and `recipient`. -/
theorem transferToken_confirmed (L : Lib) (W : Ledger) (s : State) (bank : Contract)
    (n : Int) (tx : Nat) (hb : s.bank = some bank) (ha : amountRejected s.amount = false)
    (hr : recipientRejected L s.recipient = false)
    (hn : parseEther s.amount = .ok n) (hs : W.transferToken bank s.recipient n = .ok tx)
    (hw : W.wait tx = .ok ()) :
    Effect.call (.getBalance bank s.account) ∈ transferToken L W s ∧
    (step L W s .transferToken).amount = "" ∧ (step L W s .transferToken).recipient = "" := by
  have hq : Effect.call (.getBalance bank s.account) ∈ getBalance L W s s.account := by
    unfold getBalance; rw [hb]; simp only; cases W.getBalance bank s.account <;> simp
  have hd : transferToken L W s =
      [.call (.transferToken bank s.recipient n), .call (.wait tx)] ++
      (getBalance L W s s.account ++ [.setAmount "", .setRecipient "", .setShowError false]) := by
    simp [transferToken, hb, ha, hr, hn, hs, hw]
  refine ⟨by rw [hd]; simp [hq], ?_, ?_⟩
  · simp only [step, Event.effects, hd, applyAll_append]
    simp [applyAll, Effect.apply]
  · simp only [step, Event.effects, hd, applyAll_append]
    simp [applyAll, Effect.apply]

/-- With a handle bound, the only call of `getBalance` is the query. -/
theorem callsOf_getBalance (L : Lib) (W : Ledger) (s : State) (bank : Contract)
    (address : Option String) (hb : s.bank = some bank) :
    callsOf (getBalance L W s address) = [.getBalance bank address] := by
  unfold getBalance
  rw [hb]
  simp only
  cases W.getBalance bank address <;> simp [callsOf]

/-- The calls of a list of effects that starts with a call. -/
theorem callsOf_call (c : Call) (rest : List Effect) :
    callsOf (.call c :: rest) = c :: callsOf rest := by
  simp [callsOf]

/-- The calls of a concatenation. -/
theorem callsOf_append (t u : List Effect) : callsOf (t ++ u) = callsOf t ++ callsOf u := by
  simp [callsOf]

/-- When submission and confirmation both succeed, the calls of `deposit` are, in this
order, the submission, the confirmation wait and then the balance query. -/
theorem deposit_confirmed_calls (L : Lib) (W : Ledger) (s : State) (bank : Contract)
    (n : Int) (tx : Nat) (hb : s.bank = some bank) (ha : amountRejected s.amount = false)
    (hn : parseEther s.amount = .ok n) (hs : W.deposit bank n = .ok tx)
    (hw : W.wait tx = .ok ()) :
    callsOf (deposit L W s) = [.deposit bank n, .wait tx, .getBalance bank s.account] := by
  have hd : deposit L W s = .call (.deposit bank n) :: .call (.wait tx) ::
      (getBalance L W s s.account ++ [.setAmount "", .setShowError false]) := by
    simp [deposit, hb, ha, hn, hs, hw]
  rw [hd, callsOf_call, callsOf_call, callsOf_append, callsOf_getBalance L W s bank _ hb]
  simp [callsOf]

/-- As `deposit_confirmed_calls`, for `withdraw`. -/
theorem withdraw_confirmed_calls (L : Lib) (W : Ledger) (s : State) (bank : Contract)
    (n : Int) (tx : Nat) (hb : s.bank = some bank) (ha : amountRejected s.amount = false)
    (hn : parseEther s.amount = .ok n) (hs : W.withdraw bank n = .ok tx)
    (hw : W.wait tx = .ok ()) :
    callsOf (withdraw L W s) = [.withdraw bank n, .wait tx, .getBalance bank s.account] := by
  have hd : withdraw L W s = .call (.withdraw bank n) :: .call (.wait tx) ::
      (getBalance L W s s.account ++ [.setAmount "", .setShowError false]) := by
    simp [withdraw, hb, ha, hn, hs, hw]
  rw [hd, callsOf_call, callsOf_call, callsOf_append, callsOf_getBalance L W s bank _ hb]
  simp [callsOf]

/-- As `deposit_confirmed_calls`, for `transferToken`. -/
theorem transferToken_confirmed_calls (L : Lib) (W : Ledger) (s : State) (bank : Contract)
    (n : Int) (tx : Nat) (hb : s.bank = some bank) (ha : amountRejected s.amount = false)
    (hr : recipientRejected L s.recipient = false)
    (hn : parseEther s.amount = .ok n) (hs : W.transferToken bank s.recipient n = .ok tx)
    (hw : W.wait tx = .ok ()) :
    callsOf (transferToken L W s) =
      [.transferToken bank s.recipient n, .wait tx, .getBalance bank s.account] := by
  have hd : transferToken L W s =
      .call (.transferToken bank s.recipient n) :: .call (.wait tx) ::
      (getBalance L W s s.account ++
        [.setAmount "", .setRecipient "", .setShowError false]) := by
    simp [transferToken, hb, ha, hr, hn, hs, hw]
  rw [hd, callsOf_call, callsOf_call, callsOf_append, callsOf_getBalance L W s bank _ hb]
  simp [callsOf]

/-- The input setters are not among the effects of `getBalance`. -/
theorem getBalance_no_input_setter (L : Lib) (W : Ledger) (s : State)
    (address : Option String) (v : String) :
    Effect.setAmount v ∉ getBalance L W s address ∧
    Effect.setRecipient v ∉ getBalance L W s address := by
  unfold getBalance
  cases s.bank with
  | none => simp
  | some bank =>
    simp only
    cases W.getBalance bank address <;> simp

/-- The input cells after a list of effects that contains no input setter. -/
theorem applyAll_inputs (t : List Effect) (s : State)
    (h : ∀ v, Effect.setAmount v ∉ t ∧ Effect.setRecipient v ∉ t) :
    (applyAll s t).amount = s.amount ∧ (applyAll s t).recipient = s.recipient := by
  induction t using List.reverseRecOn with
  | nil => exact ⟨rfl, rfl⟩
  | append_singleton t e ih =>
    have ih2 := ih (fun v => ⟨fun hm => (h v).1 (by simp [hm]), fun hm => (h v).2 (by simp [hm])⟩)
    rw [applyAll_append]
    cases e with
    | setAmount a => exact absurd (by simp) (h a).1
    | setRecipient r => exact absurd (by simp) (h r).2
    | _ => all_goals simpa [applyAll, Effect.apply] using ih2

/-- An input setter among the effects of `deposit` means that submission and
confirmation both succeeded. -/
theorem deposit_input_setter (L : Lib) (W : Ledger) (s : State) (v : String)
    (hx : Effect.setAmount v ∈ deposit L W s ∨ Effect.setRecipient v ∈ deposit L W s) :
    ∃ bank n tx, s.bank = some bank ∧ amountRejected s.amount = false ∧
      parseEther s.amount = .ok n ∧ W.deposit bank n = .ok tx ∧ W.wait tx = .ok () := by
  unfold deposit at hx
  split at hx
  · simp [reportError] at hx
  · split_ifs at hx with ha
    · simp [reportError] at hx
    · split at hx
      · simp [reportError] at hx
      · split at hx
        · simp [reportError] at hx
        · split at hx
          · simp [reportError] at hx
          · rename_i bank hb _ n hn _ tx hd _ _ hw
            exact ⟨bank, n, tx, hb, by simpa using ha, hn, hd, hw⟩

/-- As `deposit_input_setter`, for `withdraw`. -/
theorem withdraw_input_setter (L : Lib) (W : Ledger) (s : State) (v : String)
    (hx : Effect.setAmount v ∈ withdraw L W s ∨ Effect.setRecipient v ∈ withdraw L W s) :
    ∃ bank n tx, s.bank = some bank ∧ amountRejected s.amount = false ∧
      parseEther s.amount = .ok n ∧ W.withdraw bank n = .ok tx ∧ W.wait tx = .ok () := by
  unfold withdraw at hx
  split at hx
  · simp [reportError] at hx
  · split_ifs at hx with ha
    · simp [reportError] at hx
    · split at hx
      · simp [reportError] at hx
      · split at hx
        · simp [reportError] at hx
        · split at hx
          · simp [reportError] at hx
          · rename_i bank hb _ n hn _ tx hd _ _ hw
            exact ⟨bank, n, tx, hb, by simpa using ha, hn, hd, hw⟩

/-- As `deposit_input_setter`, for `transferToken`. -/
theorem transferToken_input_setter (L : Lib) (W : Ledger) (s : State) (v : String)
    (hx : Effect.setAmount v ∈ transferToken L W s ∨
      Effect.setRecipient v ∈ transferToken L W s) :
    ∃ bank n tx, s.bank = some bank ∧ amountRejected s.amount = false ∧
      recipientRejected L s.recipient = false ∧ parseEther s.amount = .ok n ∧
      W.transferToken bank s.recipient n = .ok tx ∧ W.wait tx = .ok () := by
  unfold transferToken at hx
  split at hx
  · simp [reportError] at hx
  · split_ifs at hx with ha hq
    · simp [reportError] at hx
    · simp [reportError] at hx
    · split at hx
      · simp [reportError] at hx
      · split at hx
        · simp [reportError] at hx
        · split at hx
          · simp [reportError] at hx
          · rename_i bank hb _ n hn _ tx hd _ _ hw
            exact ⟨bank, n, tx, hb, by simpa using ha, by simpa using hq, hn, hd, hw⟩

/-- C8 (amended): for each of `deposit`, `withdraw` and `transferToken`, when submission
and confirmation both succeed a fresh balance query for the account of the snapshot is
triggered: the calls issued are, in this order, the mutating call, `tx.wait()` and then
`bank.getBalance(account)` through the bound handle, and nothing else.  Afterwards
`amount` is empty; `transferToken` also empties `recipient`, while `deposit` and
`withdraw` leave `recipient` as it was.  Conversely an input setter is called, or an
input field changes, only when submission and confirmation both succeeded. -/
theorem success_refreshes_and_clears (L : Lib) (W : Ledger) (s : State) :
    (∀ bank n tx, s.bank = some bank → amountRejected s.amount = false →
        parseEther s.amount = .ok n → W.wait tx = .ok () →
      (W.deposit bank n = .ok tx →
        callsOf (deposit L W s) = [.deposit bank n, .wait tx, .getBalance bank s.account] ∧
        Effect.call (.getBalance bank s.account) ∈ deposit L W s ∧
        (step L W s .deposit).amount = "" ∧
        (step L W s .deposit).recipient = s.recipient) ∧
      (W.withdraw bank n = .ok tx →
        callsOf (withdraw L W s) = [.withdraw bank n, .wait tx, .getBalance bank s.account] ∧
        Effect.call (.getBalance bank s.account) ∈ withdraw L W s ∧
        (step L W s .withdraw).amount = "" ∧
        (step L W s .withdraw).recipient = s.recipient) ∧
      (recipientRejected L s.recipient = false →
        W.transferToken bank s.recipient n = .ok tx →
        callsOf (transferToken L W s) =
          [.transferToken bank s.recipient n, .wait tx, .getBalance bank s.account] ∧
        Effect.call (.getBalance bank s.account) ∈ transferToken L W s ∧
        (step L W s .transferToken).amount = "" ∧
        (step L W s .transferToken).recipient = "")) ∧
    (((∃ v, Effect.setAmount v ∈ deposit L W s ∨ Effect.setRecipient v ∈ deposit L W s) ∨
        (step L W s .deposit).amount ≠ s.amount ∨
        (step L W s .deposit).recipient ≠ s.recipient) →
      ∃ bank n tx, s.bank = some bank ∧ amountRejected s.amount = false ∧
        parseEther s.amount = .ok n ∧ W.deposit bank n = .ok tx ∧ W.wait tx = .ok ()) ∧
    (((∃ v, Effect.setAmount v ∈ withdraw L W s ∨ Effect.setRecipient v ∈ withdraw L W s) ∨
        (step L W s .withdraw).amount ≠ s.amount ∨
        (step L W s .withdraw).recipient ≠ s.recipient) →
      ∃ bank n tx, s.bank = some bank ∧ amountRejected s.amount = false ∧
        parseEther s.amount = .ok n ∧ W.withdraw bank n = .ok tx ∧ W.wait tx = .ok ()) ∧
    (((∃ v, Effect.setAmount v ∈ transferToken L W s ∨
          Effect.setRecipient v ∈ transferToken L W s) ∨
        (step L W s .transferToken).amount ≠ s.amount ∨
        (step L W s .transferToken).recipient ≠ s.recipient) →
      ∃ bank n tx, s.bank = some bank ∧ amountRejected s.amount = false ∧
        recipientRejected L s.recipient = false ∧ parseEther s.amount = .ok n ∧
        W.transferToken bank s.recipient n = .ok tx ∧ W.wait tx = .ok ()) := by
  refine ⟨?_, ?_, ?_, ?_⟩
  · intro bank n tx hb ha hn hw
    exact ⟨fun hs => ⟨deposit_confirmed_calls L W s bank n tx hb ha hn hs hw,
        deposit_confirmed L W s bank n tx hb ha hn hs hw⟩,
      fun hs => ⟨withdraw_confirmed_calls L W s bank n tx hb ha hn hs hw,
        withdraw_confirmed L W s bank n tx hb ha hn hs hw⟩,
      fun hr hs => ⟨transferToken_confirmed_calls L W s bank n tx hb ha hr hn hs hw,
        transferToken_confirmed L W s bank n tx hb ha hr hn hs hw⟩⟩
  · intro h
    by_contra hno
    have hnone : ∀ v, Effect.setAmount v ∉ deposit L W s ∧
        Effect.setRecipient v ∉ deposit L W s := fun v =>
      ⟨fun hm => hno (deposit_input_setter L W s v (Or.inl hm)),
        fun hm => hno (deposit_input_setter L W s v (Or.inr hm))⟩
    have hkeep := applyAll_inputs (deposit L W s) s hnone
    rcases h with ⟨v, hv | hv⟩ | h | h
    · exact (hnone v).1 hv
    · exact (hnone v).2 hv
    · exact h hkeep.1
    · exact h hkeep.2
  · intro h
    by_contra hno
    have hnone : ∀ v, Effect.setAmount v ∉ withdraw L W s ∧
        Effect.setRecipient v ∉ withdraw L W s := fun v =>
      ⟨fun hm => hno (withdraw_input_setter L W s v (Or.inl hm)),
        fun hm => hno (withdraw_input_setter L W s v (Or.inr hm))⟩
    have hkeep := applyAll_inputs (withdraw L W s) s hnone
    rcases h with ⟨v, hv | hv⟩ | h | h
    · exact (hnone v).1 hv
    · exact (hnone v).2 hv
    · exact h hkeep.1
    · exact h hkeep.2
  · intro h
    by_contra hno
    have hnone : ∀ v, Effect.setAmount v ∉ transferToken L W s ∧
        Effect.setRecipient v ∉ transferToken L W s := fun v =>
      ⟨fun hm => hno (transferToken_input_setter L W s v (Or.inl hm)),
        fun hm => hno (transferToken_input_setter L W s v (Or.inr hm))⟩
    have hkeep := applyAll_inputs (transferToken L W s) s hnone
    rcases h with ⟨v, hv | hv⟩ | h | h
    · exact (hnone v).1 hv
    · exact (hnone v).2 hv
    · exact h hkeep.1
    · exact h hkeep.2

/-- Witness for C8 (amended): a confirmed transfer of `1.5` to `accountB`. -/
theorem success_refreshes_and_clears_witness :
    callsOf (transferToken sampleLib acceptingLedger (connectedState "1.5" accountB)) =
      [.transferToken sampleBank (connectedState "1.5" accountB).recipient
          1500000000000000000,
        .wait 3, .getBalance sampleBank (connectedState "1.5" accountB).account] ∧
    Effect.call (.getBalance sampleBank (connectedState "1.5" accountB).account) ∈
      transferToken sampleLib acceptingLedger (connectedState "1.5" accountB) ∧
    (step sampleLib acceptingLedger (connectedState "1.5" accountB) .transferToken).amount
      = "" ∧
    (step sampleLib acceptingLedger (connectedState "1.5" accountB) .transferToken).recipient
      = "" :=
  ((success_refreshes_and_clears sampleLib acceptingLedger (connectedState "1.5" accountB)).1
    sampleBank 1500000000000000000 3 rfl (by decide) rfl rfl).2.2 (by decide) rfl

/-! ## Connecting (C9, C10) -/

/-- C9 (defect): when the account request of `connectAccount` returns an empty list,
the handler has no test on the list: it records `accounts[0]`, which is `undefined`, as
the account, still builds and stores a handle, and reports nothing (neither
`setErrorMessage` nor `setShowError` is called, so the banner keeps its state). -/
theorem connect_empty_list_builds_handle (L : Lib) (W : Ledger) (s : State) (p : Provider)
    (hw : s.ethWallet = some p) :
    Effect.setAccount none ∈ connectAccount L W s (.ok []) ∧
    Effect.setBank { address := contractAddress, signer := { provider := p } } ∈
      connectAccount L W s (.ok []) ∧
    (∀ e ∈ connectAccount L W s (.ok []),
      (∀ m, e ≠ Effect.setErrorMessage m) ∧ (∀ b, e ≠ Effect.setShowError b)) ∧
    (step L W s (.connectAccount (.ok []))).account = none ∧
    (step L W s (.connectAccount (.ok []))).bank =
      some { address := contractAddress, signer := { provider := p } } ∧
    (step L W s (.connectAccount (.ok []))).showError = s.showError ∧
    (step L W s (.connectAccount (.ok []))).errorMessage = s.errorMessage := by
  cases hb : s.bank with
  | none =>
    simp [step, Event.effects, connectAccount, getBankContract, getBalance, hw, hb, applyAll,
      Effect.apply]
  | some bank =>
    cases hq : W.getBalance bank s.account <;>
      simp [step, Event.effects, connectAccount, getBankContract, getBalance, hw, hb, hq,
        applyAll, Effect.apply]

/-- The failing input of C9: the account request returns `[]` on the state left by
`getWallet`.  The account becomes `undefined`, a handle is stored and no error is shown. -/
theorem connect_empty_list_builds_handle_witness :
    connectAccount sampleLib acceptingLedger readyState (.ok [])
      = [.call .requestAccounts, .setAccount none, .setBank sampleBank] ∧
    (step sampleLib acceptingLedger readyState (.connectAccount (.ok []))).account = none ∧
    (step sampleLib acceptingLedger readyState (.connectAccount (.ok []))).bank
      = some sampleBank ∧
    (step sampleLib acceptingLedger readyState (.connectAccount (.ok []))).showError
      = false ∧
    (step sampleLib acceptingLedger readyState (.connectAccount (.ok []))).errorMessage
      = "" :=
  ⟨by decide,
    (connect_empty_list_builds_handle sampleLib acceptingLedger readyState .web3Provider
      rfl).2.2.2⟩

/-- The rejection path of `connectAccount`: for every state, if the account request is
rejected by the wallet (throws with message `m`), no account is recorded and no handle
is built
(`account` and `bank` keep their values, neither setter is called), and the cause is
shown: `showError = true` with `errorMessage = m`, or with
`Ethereum provider not initialized.` when no provider is stored and the request is not
even made. -/
theorem rejected_connect_stays_disconnected (L : Lib) (W : Ledger) (s : State) (m : String) :
    (step L W s (.connectAccount (.error m))).account = s.account ∧
    (step L W s (.connectAccount (.error m))).bank = s.bank ∧
    (∀ e ∈ connectAccount L W s (.error m),
      (∀ a, e ≠ Effect.setAccount a) ∧ (∀ b, e ≠ Effect.setBank b)) ∧
    ledgerCalls (connectAccount L W s (.error m)) = [] ∧
    (step L W s (.connectAccount (.error m))).showError = true ∧
    (step L W s (.connectAccount (.error m))).errorMessage =
      (if s.ethWallet = none then "Ethereum provider not initialized." else m) := by
  cases hw : s.ethWallet with
  | none =>
    simp [step, Event.effects, connectAccount, hw, reportError, applyAll, Effect.apply,
      ledgerCalls, callsOf]
  | some p =>
    simp [step, Event.effects, connectAccount, hw, reportError, applyAll, Effect.apply,
      ledgerCalls, callsOf, Call.isLedger]

/-- C10 (defect): when `connectAccount` succeeds from a state with a provider and no
bound handle, the `getBalance` call inside `getBankContract` runs against the snapshot in
which `bank` is still unset: no query is sent to the ledger and `balance` keeps its
value, although the handle and the account are stored for the next render. -/
theorem first_connect_skips_balance_query (L : Lib) (W : Ledger) (s : State) (p : Provider)
    (accounts : List String) (hw : s.ethWallet = some p) (hb : s.bank = none) :
    connectAccount L W s (.ok accounts) =
      [.call .requestAccounts, .setAccount accounts.head?,
        .setBank { address := contractAddress, signer := { provider := p } }] ∧
    ledgerCalls (connectAccount L W s (.ok accounts)) = [] ∧
    (step L W s (.connectAccount (.ok accounts))).balance = s.balance := by
  have hd : connectAccount L W s (.ok accounts) =
      [.call .requestAccounts, .setAccount accounts.head?,
        .setBank { address := contractAddress, signer := { provider := p } }] := by
    simp [connectAccount, getBankContract, getBalance, hw, hb]
  refine ⟨hd, ?_, ?_⟩
  · rw [hd]; simp [ledgerCalls, callsOf, Call.isLedger]
  · simp only [step, Event.effects, hd]; simp [applyAll, Effect.apply]

/-- The failing input of C10: first connection as `accountA` against a ledger that would
answer the balance query with 2.5 display units; no query is sent and the balance stays
`0`. -/
theorem first_connect_skips_balance_query_witness :
    acceptingLedger.getBalance sampleBank (some accountA) = .ok 2500000000000000000 ∧
    ledgerCalls (connectAccount sampleLib acceptingLedger readyState (.ok [accountA])) = [] ∧
    (step sampleLib acceptingLedger readyState (.connectAccount (.ok [accountA]))).balance
      = "0" :=
  ⟨rfl, (first_connect_skips_balance_query sampleLib acceptingLedger readyState .web3Provider
    [accountA] rfl rfl).2⟩

/-! ## Account changes (C3, C4) -/

/-- Counterexample to C3: after an `accountsChanged` notification with an empty list on a
connected state, the account and the handle are still held, `getBalance` still queries
the ledger and `deposit` still submits. -/
theorem empty_accounts_keeps_session :
    (step sampleLib acceptingLedger (connectedState "1.5" "") (.accountsChanged [])).account
      = some accountA ∧
    (step sampleLib acceptingLedger (connectedState "1.5" "") (.accountsChanged [])).bank
      = some sampleBank ∧
    ledgerCalls (getBalance sampleLib acceptingLedger
      (step sampleLib acceptingLedger (connectedState "1.5" "") (.accountsChanged []))
      (some accountA)) = [.getBalance sampleBank (some accountA)] ∧
    mutatingCalls (deposit sampleLib acceptingLedger
      (step sampleLib acceptingLedger (connectedState "1.5" "") (.accountsChanged [])))
      = [.deposit sampleBank 1500000000000000000] := by
  refine ⟨?_, ?_, ?_, ?_⟩ <;> decide

/-- C3 (amended): an `accountsChanged` notification with an empty list only reports
`No accounts found. Please connect MetaMask.` (`showError = true`); every other cell,
the active account and the handle included, keeps its value, and `getBalance`,
`deposit`, `withdraw` and `transferToken` afterwards perform exactly the effects, ledger
calls included, that they would have performed before the notification. -/
theorem empty_accounts_only_reports (L : Lib) (W : Ledger) (s : State) :
    step L W s (.accountsChanged []) =
      { s with errorMessage := "No accounts found. Please connect MetaMask.",
               showError := true } ∧
    (step L W s (.accountsChanged [])).account = s.account ∧
    (step L W s (.accountsChanged [])).bank = s.bank ∧
    (∀ address, getBalance L W (step L W s (.accountsChanged [])) address
      = getBalance L W s address) ∧
    deposit L W (step L W s (.accountsChanged [])) = deposit L W s ∧
    withdraw L W (step L W s (.accountsChanged [])) = withdraw L W s ∧
    transferToken L W (step L W s (.accountsChanged [])) = transferToken L W s := by
  have h : step L W s (.accountsChanged []) =
      { s with errorMessage := "No accounts found. Please connect MetaMask.",
               showError := true } := by
    simp [step, Event.effects, accountsChanged, applyAll, Effect.apply]
  rw [h]
  refine ⟨rfl, rfl, rfl, fun _ => rfl, rfl, rfl, rfl⟩

/-- Counterexample to C4: connect as `accountA`, then the wallet switches to `accountB`.
The notification only calls `setAccount`; the handle in the state is the one stored by
`connectAccount`, and a deposit entered afterwards is submitted through it. -/
theorem account_switch_keeps_handle :
    (run sampleLib acceptingLedger State.init
      [.getWallet true, .connectAccount (.ok [accountA])]).account = some accountA ∧
    (run sampleLib acceptingLedger State.init
      [.getWallet true, .connectAccount (.ok [accountA])]).bank = some sampleBank ∧
    accountsChanged [accountB] = [.setAccount (some accountB)] ∧
    (run sampleLib acceptingLedger State.init
      [.getWallet true, .connectAccount (.ok [accountA]),
        .accountsChanged [accountB]]).account = some accountB ∧
    (run sampleLib acceptingLedger State.init
      [.getWallet true, .connectAccount (.ok [accountA]),
        .accountsChanged [accountB]]).bank = some sampleBank ∧
    mutatingCalls (deposit sampleLib acceptingLedger
      (run sampleLib acceptingLedger State.init
        [.getWallet true, .connectAccount (.ok [accountA]), .accountsChanged [accountB],
          .handleAmountChange "1.5"])) = [.deposit sampleBank 1500000000000000000] := by
  refine ⟨?_, ?_, ?_, ?_, ?_, ?_⟩ <;> decide

/-- The cells `account` and `bank` are not touched by the effects of `getBalance`. -/
theorem applyAll_getBalance_session (L : Lib) (W : Ledger) (s s0 : State)
    (address : Option String) :
    (applyAll s (getBalance L W s0 address)).account = s.account ∧
    (applyAll s (getBalance L W s0 address)).bank = s.bank := by
  unfold getBalance
  cases s0.bank with
  | none => simp [applyAll]
  | some bank =>
    simp only
    cases W.getBalance bank address <;> simp [applyAll, Effect.apply]

/-- Only `connectAccount` calls `setBank`. -/
theorem setBank_only_connect (L : Lib) (W : Ledger) (s : State) (ev : Event) (b : Contract)
    (hx : Effect.setBank b ∈ ev.effects L W s) : ∃ response, ev = .connectAccount response := by
  cases ev with
  | connectAccount response => exact ⟨response, rfl⟩
  | getWallet present =>
    simp only [Event.effects, getWallet] at hx
    split_ifs at hx <;> simp at hx
  | accountsChanged accounts =>
    simp only [Event.effects, accountsChanged] at hx
    split_ifs at hx <;> simp at hx
  | deposit =>
    exfalso
    simp only [Event.effects, deposit, getBalance] at hx
    repeat' split at hx
    all_goals simp [reportError] at hx
  | withdraw =>
    exfalso
    simp only [Event.effects, withdraw, getBalance] at hx
    repeat' split at hx
    all_goals simp [reportError] at hx
  | transferToken =>
    exfalso
    simp only [Event.effects, transferToken, getBalance] at hx
    repeat' split at hx
    all_goals simp [reportError] at hx
  | toggleAddressVisibility => simp [Event.effects, toggleAddressVisibility] at hx
  | handleAmountChange v => simp [Event.effects, handleAmountChange] at hx
  | handleRecipientChange v => simp [Event.effects, handleRecipientChange] at hx

/-- C4 (amended): a handle is built and stored only by `connectAccount`.  When its
account request succeeds with a stored provider, the next state holds `accounts[0]` as
the account and a newly built handle over the provider's signer.  An `accountsChanged`
notification never calls `setBank`: with a non-empty list it replaces the account by
`accounts[0]` and leaves the stored handle as it is. -/
theorem handle_built_only_on_connect (L : Lib) (W : Ledger) (s : State) :
    (∀ (ev : Event) (b : Contract), Effect.setBank b ∈ ev.effects L W s →
      ∃ response, ev = .connectAccount response) ∧
    (∀ (p : Provider) (accounts : List String), s.ethWallet = some p →
      Effect.setBank { address := contractAddress, signer := { provider := p } } ∈
        connectAccount L W s (.ok accounts) ∧
      (step L W s (.connectAccount (.ok accounts))).account = accounts.head? ∧
      (step L W s (.connectAccount (.ok accounts))).bank =
        some { address := contractAddress, signer := { provider := p } }) ∧
    (∀ accounts : List String,
      (∀ e ∈ accountsChanged accounts, ∀ b, e ≠ Effect.setBank b) ∧
      (step L W s (.accountsChanged accounts)).bank = s.bank ∧
      (accounts ≠ [] → (step L W s (.accountsChanged accounts)).account = accounts.head?)) := by
  refine ⟨fun ev b hx => setBank_only_connect L W s ev b hx, ?_, ?_⟩
  · intro p accounts hw
    have hd : connectAccount L W s (.ok accounts) =
        [.call .requestAccounts, .setAccount accounts.head?,
          .setBank { address := contractAddress, signer := { provider := p } }] ++
        getBalance L W s s.account := by
      simp [connectAccount, getBankContract, hw]
    have hg := applyAll_getBalance_session L W
      (applyAll s [.call .requestAccounts, .setAccount accounts.head?,
          .setBank { address := contractAddress, signer := { provider := p } }]) s s.account
    refine ⟨by rw [hd]; simp, ?_, ?_⟩
    · simp only [step, Event.effects, hd, applyAll_append]
      rw [hg.1]; simp [applyAll, Effect.apply]
    · simp only [step, Event.effects, hd, applyAll_append]
      rw [hg.2]; simp [applyAll, Effect.apply]
  · intro accounts
    cases accounts with
    | nil => simp [step, Event.effects, accountsChanged, applyAll, Effect.apply]
    | cons a rest => simp [step, Event.effects, accountsChanged, applyAll, Effect.apply]

/-- Witness for C4 (amended): connecting as `accountA` from the ready state, and the
switch to `accountB` on a connected state. -/
theorem handle_built_only_on_connect_witness :
    (step sampleLib acceptingLedger readyState (.connectAccount (.ok [accountA]))).bank
      = some sampleBank ∧
    (step sampleLib acceptingLedger (connectedState "" "") (.accountsChanged [accountB])).bank
      = some sampleBank ∧
    (step sampleLib acceptingLedger (connectedState "" "")
      (.accountsChanged [accountB])).account = some accountB :=
  ⟨((handle_built_only_on_connect sampleLib acceptingLedger readyState).2.1
      .web3Provider [accountA] rfl).2.2,
    ((handle_built_only_on_connect sampleLib acceptingLedger (connectedState "" "")).2.2
      [accountB]).2.1,
    ((handle_built_only_on_connect sampleLib acceptingLedger (connectedState "" "")).2.2
      [accountB]).2.2 (by decide)⟩

/-! ## Conversion to base units (C6) -/

/-- Reading digits after an accumulated value `n`. -/
theorem foldl_digits (ds : List Char) (n : Nat) :
    ds.foldl (fun n c => 10 * n + (c.toNat - 48)) n = n * 10 ^ ds.length + natOfDigits ds := by
  induction ds generalizing n with
  | nil => simp [natOfDigits]
  | cons c ds ih =>
    simp only [List.foldl_cons, List.length_cons, natOfDigits]
    rw [ih, ih (10 * 0 + (c.toNat - 48))]
    ring

/-- The value of a concatenation of digit strings. -/
theorem natOfDigits_append (a b : List Char) :
    natOfDigits (a ++ b) = natOfDigits a * 10 ^ b.length + natOfDigits b := by
  unfold natOfDigits
  rw [List.foldl_append, foldl_digits]
  rfl

/-- A string of zeros has value zero. -/
theorem natOfDigits_replicate_zero (k : Nat) : natOfDigits (List.replicate k '0') = 0 := by
  induction k with
  | zero => rfl
  | succ k ih =>
    have : List.replicate (k + 1) '0' = ['0'] ++ List.replicate k '0' := by
      simp [List.replicate_succ]
    rw [this, natOfDigits_append, ih]
    simp [natOfDigits]

/-- Appending `k` zeros multiplies the value by `10 ^ k`. -/
theorem natOfDigits_pad (ds : List Char) (k : Nat) :
    natOfDigits (ds ++ List.replicate k '0') = natOfDigits ds * 10 ^ k := by
  rw [natOfDigits_append, natOfDigits_replicate_zero]
  simp

/-- A digit string is its trimmed form followed by the zeros that were removed. -/
theorem trimTrailingZeros_append (ds : List Char) :
    ds = trimTrailingZeros ds ++ List.replicate (ds.length - (trimTrailingZeros ds).length) '0' := by
  unfold trimTrailingZeros
  have h := List.takeWhile_append_dropWhile (fun c => decide (c = '0')) ds.reverse
  have htw : List.takeWhile (fun c => decide (c = '0')) ds.reverse =
      List.replicate (List.takeWhile (fun c => decide (c = '0')) ds.reverse).length '0' := by
    rw [List.eq_replicate_iff]
    refine ⟨rfl, fun b hb => ?_⟩
    have := List.mem_takeWhile_imp hb
    simpa using this
  have hlen : ds.length = (List.takeWhile (fun c => decide (c = '0')) ds.reverse).length +
      (List.dropWhile (fun c => decide (c = '0')) ds.reverse).length := by
    rw [← List.length_append, h, List.length_reverse]
  have h2 : ds = (List.dropWhile (fun c => decide (c = '0')) ds.reverse).reverse ++
      (List.takeWhile (fun c => decide (c = '0')) ds.reverse).reverse := by
    rw [← List.reverse_append, h, List.reverse_reverse]
  rw [htw, List.reverse_replicate] at h2
  rw [List.length_reverse]
  have : ds.length - (List.dropWhile (fun c => decide (c = '0')) ds.reverse).length =
      (List.takeWhile (fun c => decide (c = '0')) ds.reverse).length := by omega
  rw [this]
  exact h2

/-- Trimming does not lengthen. -/
theorem trimTrailingZeros_length (ds : List Char) :
    (trimTrailingZeros ds).length ≤ ds.length := by
  have h := congrArg List.length (trimTrailingZeros_append ds)
  simp only [List.length_append, List.length_replicate] at h
  omega

/-- Trimming the zeros at the end, restoring a lone `0` and padding to 18 digits
multiplies the value of the digit string by the missing power of ten. -/
theorem natOfDigits_trim_pad (ds : List Char) (hlen : ds.length ≤ 18) :
    natOfDigits ((if trimTrailingZeros ds = [] then ['0'] else trimTrailingZeros ds) ++
      List.replicate (18 - (if trimTrailingZeros ds = [] then ['0']
        else trimTrailingZeros ds).length) '0') = natOfDigits ds * 10 ^ (18 - ds.length) := by
  have happ := trimTrailingZeros_append ds
  have hle := trimTrailingZeros_length ds
  have hval : natOfDigits ds = natOfDigits (trimTrailingZeros ds) *
      10 ^ (ds.length - (trimTrailingZeros ds).length) := by
    conv_lhs => rw [happ]
    exact natOfDigits_pad _ _
  by_cases ht : trimTrailingZeros ds = []
  · rw [if_pos ht, natOfDigits_pad]
    rw [hval, ht]
    simp [natOfDigits]
  · rw [if_neg ht, natOfDigits_pad, hval, mul_assoc, ← pow_add]
    congr 2
    omega

/-- The base units computed from a non-empty whole part and at most 18 fractional
digits. -/
theorem weiOfParts_eq (whole fraction : List Char) (hw : whole ≠ [])
    (hlen : fraction.length ≤ 18) :
    weiOfParts false whole fraction =
      .ok ((natOfDigits whole : Int) * 10 ^ 18 +
        ((natOfDigits fraction * 10 ^ (18 - fraction.length) : Nat) : Int)) := by
  unfold weiOfParts
  simp only [if_neg hw, Bool.false_eq_true, if_false]
  by_cases hf : fraction = []
  · subst hf
    have ht : trimTrailingZeros ['0'] = [] := by decide
    simp only [if_true, ht, List.length_nil]
    simp [natOfDigits]
  · simp only [if_neg hf]
    have hle := trimTrailingZeros_length fraction
    have hnot : ¬ 18 < (trimTrailingZeros fraction).length := by omega
    rw [if_neg hnot, natOfDigits_trim_pad fraction hlen]

/-- A decimal digit is not the point. -/
theorem digit_ne_dot {c : Char} (h : isDecimalDigit c = true) : c ≠ '.' := by
  intro e; subst e; simp [isDecimalDigit] at h

/-- Splitting a digit string at the point gives the string itself. -/
theorem splitAtChar_digits (ds : List Char) (hd : ∀ c ∈ ds, isDecimalDigit c = true) :
    splitAtChar '.' ds = [ds] := by
  induction ds with
  | nil => rfl
  | cons c ds ih =>
    have hc := digit_ne_dot (hd c (by simp))
    have := ih (fun x hx => hd x (by simp [hx]))
    simp [splitAtChar, hc, this]

/-- Splitting after a leading digit string and a point. -/
theorem splitAtChar_digits_dot (ds rest : List Char)
    (hd : ∀ c ∈ ds, isDecimalDigit c = true) :
    splitAtChar '.' (ds ++ '.' :: rest) = ds :: splitAtChar '.' rest := by
  induction ds with
  | nil => simp [splitAtChar]
  | cons c ds ih =>
    have hc := digit_ne_dot (hd c (by simp))
    have := ih (fun x hx => hd x (by simp [hx]))
    simp [splitAtChar, hc, this]

/-- The digits read at the head of a digit string followed by a non-digit. -/
theorem takeWhile_digits (ds rest : List Char) (hd : ∀ c ∈ ds, isDecimalDigit c = true)
    (hr : ∀ c, rest.head? = some c → isDecimalDigit c = false) :
    (ds ++ rest).takeWhile isDecimalDigit = ds ∧
      (ds ++ rest).dropWhile isDecimalDigit = rest := by
  induction ds with
  | nil =>
    cases rest with
    | nil => simp
    | cons r rest =>
      have := hr r rfl
      simp [List.takeWhile, List.dropWhile, this]
  | cons c ds ih =>
    have hc := hd c (by simp)
    have := ih (fun x hx => hd x (by simp [hx]))
    simp [List.takeWhile, List.dropWhile, hc, this]

/-- The function `parseEther` on a decimal numeral with at most 18 fractional digits. -/
theorem parseEther_renderDecimal (whole fraction : List Char) (hw : whole ≠ [])
    (hwd : ∀ c ∈ whole, isDecimalDigit c = true)
    (hfd : ∀ c ∈ fraction, isDecimalDigit c = true) (hlen : fraction.length ≤ 18) :
    parseEther (String.mk (renderDecimal whole fraction)) =
      .ok ((natOfDigits whole : Int) * 10 ^ 18 +
        ((natOfDigits fraction * 10 ^ (18 - fraction.length) : Nat) : Int)) := by
  obtain ⟨c, w, rfl⟩ := List.exists_cons_of_ne_nil hw
  have hc : isDecimalDigit c = true := hwd c (by simp)
  have hcm : c ≠ '-' := by intro e; subst e; simp [isDecimalDigit] at hc
  have hcd : c ≠ '.' := digit_ne_dot hc
  have hrender : renderDecimal (c :: w) fraction =
      c :: (if fraction = [] then w else w ++ '.' :: fraction) := by
    unfold renderDecimal; split_ifs <;> simp
  have hall : (renderDecimal (c :: w) fraction).all (fun c => isDecimalDigit c || c = '.')
      = true := by
    rw [List.all_eq_true]
    intro x hx
    unfold renderDecimal at hx
    split_ifs at hx
    · simp [hwd x hx]
    · rcases List.mem_append.1 hx with h | h
      · simp [hwd x h]
      · rcases List.mem_cons.1 h with h | h
        · simp [h]
        · simp [hfd x h]
  have hsplit : splitAtChar '.' (renderDecimal (c :: w) fraction) =
      if fraction = [] then [c :: w] else [c :: w, fraction] := by
    unfold renderDecimal
    split_ifs
    · exact splitAtChar_digits _ hwd
    · rw [splitAtChar_digits_dot _ _ hwd, splitAtChar_digits _ hfd]
  have hhead : decide ((renderDecimal (c :: w) fraction).head? = some '-') = false := by
    rw [hrender]; simp [hcm]
  have hne : renderDecimal (c :: w) fraction ≠ [] := by rw [hrender]; simp
  have hnd : renderDecimal (c :: w) fraction ≠ ['.'] := by rw [hrender]; simp [hcd]
  unfold parseEther
  simp only [String.toList, hhead, Bool.false_eq_true, if_false, hall, not_true_eq_false,
    or_false, if_neg hne, if_neg hnd, hsplit]
  by_cases hf : fraction = []
  · subst hf
    simp only [if_true]
    exact weiOfParts_eq (c :: w) [] hw (by simp)
  · simp only [if_neg hf]
    exact weiOfParts_eq (c :: w) fraction hw hlen

/-- The function `parseFloat` on a decimal numeral. -/
theorem parseFloat_renderDecimal (whole fraction : List Char) (hw : whole ≠ [])
    (hwd : ∀ c ∈ whole, isDecimalDigit c = true)
    (hfd : ∀ c ∈ fraction, isDecimalDigit c = true) :
    parseFloat (String.mk (renderDecimal whole fraction)) =
      .decimal false (natOfDigits (whole ++ fraction)) (- (fraction.length : Int)) := by
  obtain ⟨c, w, rfl⟩ := List.exists_cons_of_ne_nil hw
  have hc : isDecimalDigit c = true := hwd c (by simp)
  have hrender : renderDecimal (c :: w) fraction =
      c :: (if fraction = [] then w else w ++ '.' :: fraction) := by
    unfold renderDecimal; split_ifs <;> simp
  unfold parseFloat
  have hdrop : List.dropWhile isStrWhiteSpaceChar (renderDecimal (c :: w) fraction) =
      renderDecimal (c :: w) fraction := by
    rw [hrender, List.dropWhile_cons_of_neg]; simp [digit_not_space hc]
  simp only [String.toList, hdrop]
  have hplus : c ≠ '+' := by intro e; subst e; simp [isDecimalDigit] at hc
  have hminus : c ≠ '-' := by intro e; subst e; simp [isDecimalDigit] at hc
  have hmatch : (match renderDecimal (c :: w) fraction with
      | '+' :: cs => parseUnsigned false cs
      | '-' :: cs => parseUnsigned true cs
      | cs => parseUnsigned false cs) = parseUnsigned false (renderDecimal (c :: w) fraction) := by
    rw [hrender]
    split
    · rename_i e; injection e with e1 _; exact absurd e1 hplus
    · rename_i e; injection e with e1 _; exact absurd e1 hminus
    · rfl
  refine hmatch.trans ?_
  rw [hrender, parseUnsigned_digit_or_dot false c _ (Or.inl hc), ← hrender]
  by_cases hf : fraction = []
  · subst hf
    have h1 := takeWhile_digits (c :: w) [] hwd (by simp)
    simp only [List.append_nil] at h1
    have hr : renderDecimal (c :: w) [] = c :: w := by simp [renderDecimal]
    rw [hr, h1.1, h1.2]
    simp [parseExponent]
  · have h1 := takeWhile_digits (c :: w) ('.' :: fraction) hwd
      (by intro x hx; simp at hx; subst hx; decide)
    have h2 := takeWhile_digits fraction [] hfd (by simp)
    simp only [List.append_nil] at h2
    have hr : renderDecimal (c :: w) fraction = (c :: w) ++ '.' :: fraction := by
      simp [renderDecimal, hf]
    rw [hr, h1.1, h1.2]
    simp only [h2.1, h2.2]
    simp [parseExponent, hf]

/-- A decimal numeral of positive value passes the test on the amount. -/
theorem amountRejected_renderDecimal (whole fraction : List Char) (hw : whole ≠ [])
    (hwd : ∀ c ∈ whole, isDecimalDigit c = true)
    (hfd : ∀ c ∈ fraction, isDecimalDigit c = true) (hlen : fraction.length ≤ 18)
    (hpos : 0 < decimalValue whole fraction) :
    amountRejected (String.mk (renderDecimal whole fraction)) = false := by
  have hne : String.mk (renderDecimal whole fraction) ≠ "" := by
    intro h
    have h2 := congrArg String.data h
    simp only [renderDecimal] at h2
    split_ifs at h2
    · exact hw h2
    · simp at h2
  have hnat : 0 < natOfDigits (whole ++ fraction) := by
    rw [natOfDigits_append]
    by_contra hzero
    have h0 : natOfDigits whole * 10 ^ fraction.length + natOfDigits fraction = 0 := by omega
    have hf0 : natOfDigits fraction = 0 := by omega
    have hw0 : natOfDigits whole = 0 := by
      have hm : natOfDigits whole * 10 ^ fraction.length = 0 := by omega
      rcases Nat.mul_eq_zero.1 hm with h | h
      · exact h
      · exact absurd h (by positivity)
    simp [decimalValue, hf0, hw0] at hpos
  have hpow : 10 ^ fraction.length < natOfDigits (whole ++ fraction) * 2 ^ 1075 := by
    calc 10 ^ fraction.length ≤ 10 ^ 18 := Nat.pow_le_pow_right (by decide) hlen
      _ < 2 ^ 1075 := by norm_num
      _ ≤ natOfDigits (whole ++ fraction) * 2 ^ 1075 := Nat.le_mul_of_pos_left _ hnat
  unfold amountRejected
  rw [parseFloat_renderDecimal whole fraction hw hwd hfd]
  simp only [JsNumber.leZero, neg_neg, Int.toNat_ofNat, Bool.false_or, Bool.or_eq_false_iff,
    decide_eq_false_iff_not, not_le]
  exact ⟨hne, hpow⟩

/-- The base units of a decimal numeral are its value times `10 ^ 18`. -/
theorem scaled_value (whole fraction : List Char) (hlen : fraction.length ≤ 18) :
    (((natOfDigits whole : Int) * 10 ^ 18 +
        ((natOfDigits fraction * 10 ^ (18 - fraction.length) : Nat) : Int) : Int) : ℚ) =
      decimalValue whole fraction * 10 ^ 18 := by
  unfold decimalValue
  have h18 : (10 : ℚ) ^ 18 = 10 ^ fraction.length * 10 ^ (18 - fraction.length) := by
    rw [← pow_add]; congr 1; omega
  have hne : (10 : ℚ) ^ fraction.length ≠ 0 := by positivity
  push_cast
  rw [add_mul, div_mul_eq_mul_div]
  congr 1
  rw [h18, mul_comm ((10 : ℚ) ^ fraction.length), ← mul_assoc, mul_div_assoc, div_self hne,
    mul_one]

/-- The effects of `getBalance` contain no mutating call. -/
theorem mutatingCalls_getBalance (L : Lib) (W : Ledger) (s : State) (address : Option String)
    (rest : List Effect) :
    mutatingCalls (getBalance L W s address ++ rest) = mutatingCalls rest := by
  unfold getBalance
  cases s.bank with
  | none => simp
  | some bank =>
    simp only
    cases W.getBalance bank address <;> simp [mutatingCalls, callsOf, Call.isMutating]

/-- The mutating calls of a list of effects that starts with a call. -/
theorem mutatingCalls_call (c : Call) (rest : List Effect) :
    mutatingCalls (.call c :: rest) =
      if c.isMutating then c :: mutatingCalls rest else mutatingCalls rest := by
  simp only [mutatingCalls, callsOf, List.filterMap_cons, List.filter_cons]

/-- C6: for every amount string that is a decimal numeral (a non-empty whole part, then
possibly a point and fractional digits) with at most 18 fractional digits and a value
`v > 0`, on a state with a bound handle: `deposit` submits exactly one mutating call,
`bank.deposit` with value `v * 10 ^ 18`; `withdraw` exactly `bank.withdraw` with that
amount; and `transferToken`, when the recipient is accepted, exactly `bank.transferToken`
with the recipient and that amount. -/
theorem decimal_amount_scaled (L : Lib) (W : Ledger) (s : State) (bank : Contract)
    (whole fraction : List Char) (hw : whole ≠ [])
    (hwd : ∀ c ∈ whole, isDecimalDigit c = true)
    (hfd : ∀ c ∈ fraction, isDecimalDigit c = true) (hlen : fraction.length ≤ 18)
    (hpos : 0 < decimalValue whole fraction)
    (hamount : s.amount = String.mk (renderDecimal whole fraction))
    (hb : s.bank = some bank) :
    ∃ n : Int, (n : ℚ) = decimalValue whole fraction * 10 ^ 18 ∧
      mutatingCalls (deposit L W s) = [.deposit bank n] ∧
      mutatingCalls (withdraw L W s) = [.withdraw bank n] ∧
      (recipientRejected L s.recipient = false →
        mutatingCalls (transferToken L W s) = [.transferToken bank s.recipient n]) := by
  have ha := amountRejected_renderDecimal whole fraction hw hwd hfd hlen hpos
  have hn := parseEther_renderDecimal whole fraction hw hwd hfd hlen
  rw [← hamount] at ha hn
  refine ⟨_, scaled_value whole fraction hlen, ?_, ?_, ?_⟩
  · unfold deposit
    simp only [hb, ha, hn, Bool.false_eq_true, if_false]
    cases W.deposit bank _ with
    | error m => simp [mutatingCalls, callsOf, Call.isMutating, reportError]
    | ok tx =>
      simp only
      cases W.wait tx with
      | error m => simp [mutatingCalls, callsOf, Call.isMutating, reportError]
      | ok u =>
        rw [mutatingCalls_call, mutatingCalls_call, mutatingCalls_getBalance]
        simp [mutatingCalls, callsOf, Call.isMutating]
  · unfold withdraw
    simp only [hb, ha, hn, Bool.false_eq_true, if_false]
    cases W.withdraw bank _ with
    | error m => simp [mutatingCalls, callsOf, Call.isMutating, reportError]
    | ok tx =>
      simp only
      cases W.wait tx with
      | error m => simp [mutatingCalls, callsOf, Call.isMutating, reportError]
      | ok u =>
        rw [mutatingCalls_call, mutatingCalls_call, mutatingCalls_getBalance]
        simp [mutatingCalls, callsOf, Call.isMutating]
  · intro hr
    unfold transferToken
    simp only [hb, ha, hr, hn, Bool.false_eq_true, if_false]
    cases W.transferToken bank s.recipient _ with
    | error m => simp [mutatingCalls, callsOf, Call.isMutating, reportError]
    | ok tx =>
      simp only
      cases W.wait tx with
      | error m => simp [mutatingCalls, callsOf, Call.isMutating, reportError]
      | ok u =>
        rw [mutatingCalls_call, mutatingCalls_call, mutatingCalls_getBalance]
        simp [mutatingCalls, callsOf, Call.isMutating]

/-- Witness for C6: the amount `1.5` on a connected state; the deposit submits
1500000000000000000. -/
theorem decimal_amount_scaled_witness :
    (∃ n : Int, (n : ℚ) = decimalValue ['1'] ['5'] * 10 ^ 18 ∧
      mutatingCalls (deposit sampleLib acceptingLedger (connectedState "1.5" accountB))
        = [.deposit sampleBank n] ∧
      mutatingCalls (withdraw sampleLib acceptingLedger (connectedState "1.5" accountB))
        = [.withdraw sampleBank n] ∧
      (recipientRejected sampleLib (connectedState "1.5" accountB).recipient = false →
        mutatingCalls (transferToken sampleLib acceptingLedger (connectedState "1.5" accountB))
          = [.transferToken sampleBank (connectedState "1.5" accountB).recipient n])) ∧
    decimalValue ['1'] ['5'] * 10 ^ 18 = 1500000000000000000 ∧
    mutatingCalls (deposit sampleLib acceptingLedger (connectedState "1.5" accountB))
      = [.deposit sampleBank 1500000000000000000] :=
  ⟨decimal_amount_scaled sampleLib acceptingLedger (connectedState "1.5" accountB) sampleBank
      ['1'] ['5'] (by decide) (by decide) (by decide) (by decide)
      (by rw [decimalValue, show natOfDigits ['1'] = 1 from rfl,
        show natOfDigits ['5'] = 5 from rfl]; norm_num) rfl rfl,
    by rw [decimalValue, show natOfDigits ['1'] = 1 from rfl,
      show natOfDigits ['5'] = 5 from rfl]; norm_num,
    by decide⟩

end HomePage
